import Mathlib

/-!
# Verification of the kilonova solver against its specification

This file is a shallow embedding, in Lean 4, of the core of the
`app-kilonova` axisymmetric finite-volume solver (mesh and geometry,
hydrodynamics back-end dispatch, block/global state, the per-block
Runge-Kutta sub-step, topology reconciliation, and the YAML patch
machinery), together with theorems settling the specification claims.

Modelling conventions:

* `f64` values are modelled as exact rationals (`ℚ`).  Rational
  arithmetic (`+`, `-`, `*`, `/`, `min`, `max`, integer powers) is
  modelled exactly; the transcendental routines of the floating-point
  library (`log10`, `10^x`, `sin`, `cos`, `sqrt`, `powf`, and the
  constant `PI`) are threaded through a `FloatOps` record of
  rational-valued functions, so that every geometric formula of the
  source appears verbatim with `ops.f` in place of `f64::f`.
* Functions from external crates (`hydro_srhd`, `hydro_euler`,
  `godunov_core`, `serde`) are not part of this repository; they enter
  as explicit parameters (`SrhdExt`, plm-gradient fields, and abstract
  serialisation functions), while every function of the repository
  itself is translated from its source.
* 2-D `ndarray` arrays are modelled as functions `ℕ → ℕ → α` with the
  shape carried by the surrounding mesh data (`block_size`,
  `num_polar_zones`); flattened row-major traversals (`iter`,
  `collect`) are modelled as row-major index lists.
* A Rust `panic!`/`unwrap` path is modelled by `Option` (`none` = the
  code panics) or, where the panicking branch is provably dead in every
  theorem below, by an arbitrary fixed value noted at the definition.
-/

namespace Kilonova

/-- The floating-point library's transcendental routines, as rational-valued
functions.  The source computes with `f64`; each field stands for the `f64`
approximation of the corresponding real function. -/
structure FloatOps where
  pi    : ℚ
  log10 : ℚ → ℚ
  pow10 : ℚ → ℚ
  sin   : ℚ → ℚ
  cos   : ℚ → ℚ
  sqrt  : ℚ → ℚ
  powf  : ℚ → ℚ → ℚ

instance {ε α : Type} [DecidableEq ε] [DecidableEq α] : DecidableEq (Except ε α) := fun a b =>
  match a, b with
  | .ok x, .ok y =>
    if h : x = y then isTrue (congrArg Except.ok h)
    else isFalse (fun hh => by cases hh; exact h rfl)
  | .error x, .error y =>
    if h : x = y then isTrue (congrArg Except.error h)
    else isFalse (fun hh => by cases hh; exact h rfl)
  | .ok _, .error _ => isFalse nofun
  | .error _, .ok _ => isFalse nofun

/-- `LIGHT_SPEED` from `physics/mod.rs`. -/
def LIGHT_SPEED : ℚ := 30000000000

/-- `f64::MAX`, the starting accumulator of the time-step reductions. -/
def f64MAX : ℚ := 2 ^ 1024 - 2 ^ 971

/-- Type alias for a 2D block index (`mesh.rs`): radial shell (signed) and
polar strip.  Rust's `i32` is modelled as `ℤ`; the sentinel constants
`i32::MAX`/`i32::MIN` appear explicitly below. -/
def BlockIndex : Type := ℤ × ℕ

instance : DecidableEq BlockIndex := instDecidableEqProd

/-- `i32::MAX`. -/
def i32MAX : ℤ := 2147483647

/-- `i32::MIN`. -/
def i32MIN : ℤ := -2147483648

/-- `Mesh` from `mesh.rs`: the abstract description of the spherical polar
mesh. -/
structure Mesh where
  reference_radius     : ℚ
  inner_radius         : ℚ
  outer_radius         : ℚ
  inner_excision_speed : ℚ
  outer_excision_speed : ℚ
  num_radial_zones     : Option ℕ
  num_polar_zones      : ℕ
  block_size           : ℕ
  excision_delay       : Option ℚ

/-- `Mesh::inner_excision_surface`. -/
def Mesh.inner_excision_surface (m : Mesh) (time : ℚ) : ℚ :=
  m.inner_radius + max 0 (time - m.excision_delay.getD 0) * m.inner_excision_speed

/-- `Mesh::outer_excision_surface`. -/
def Mesh.outer_excision_surface (m : Mesh) (time : ℚ) : ℚ :=
  m.outer_radius + max 0 (time - m.excision_delay.getD 0) * m.outer_excision_speed

/-- `Mesh::validate` from `mesh.rs`, with the source's bail conditions and
messages in the source's order.  `anyhow::Result<()>` is `Except String
Unit`. -/
def Mesh.validate (m : Mesh) (time : ℚ) : Except String Unit :=
  if m.reference_radius ≤ 0 ∨ m.inner_radius < 0 ∨ m.outer_radius < 0 then
    .error "all radii must be positive"
  else if m.reference_radius > m.outer_excision_surface time then
    .error "the reference radius is outside the outer excision surface"
  else if m.excision_delay.getD 0 < 0 then
    .error "the excision delay time must be non-negative"
  else if m.inner_excision_speed < 0 ∨ m.outer_excision_speed < 0 then
    .error "the excision surface speeds must be non-negative"
  else if m.outer_excision_speed < m.inner_excision_speed then
    .error "outer_excision_speed < inner_excision_speed (the IES would eventually overtake the OES)"
  else if m.block_size < 2 then
    .error "must have at least 2 radial zones per block"
  else if m.num_polar_zones ≠ 1 ∧ m.num_polar_zones < 16 then
    .error "must have at least 2 radial zones per block"
  else if m.num_polar_zones = 1 ∧ m.num_radial_zones = none then
    .error "num_radial_zones is not optional when num_polar_zones=1"
  else
    .ok ()

/-- `Mesh::moving_excision_surfaces`. -/
def Mesh.moving_excision_surfaces (m : Mesh) : Bool :=
  m.inner_excision_speed > 0 ∨ m.outer_excision_speed > 0

/-- `Mesh::zone_dlogr`.  The `None` arm divides `PI` by the polar zone
count. -/
def Mesh.zone_dlogr (ops : FloatOps) (m : Mesh) : ℚ :=
  match m.num_radial_zones with
  | some nr => 1 / (nr : ℚ)
  | none => ops.pi / (m.num_polar_zones : ℚ)

/-- `Mesh::block_dlogr`. -/
def Mesh.block_dlogr (ops : FloatOps) (m : Mesh) : ℚ :=
  (m.block_size : ℚ) * m.zone_dlogr ops

/-! ## Geometry (`mesh.rs`) -/

/-- A cached `GridGeometry` (`mesh.rs`).  The `ndarray` fields are modelled
as index functions; the shape `(nr, nq)` is carried by the grid that built
the record. -/
structure GridGeometry where
  radial_vertices   : ℕ → ℚ
  radial_face_areas : ℕ → ℕ → ℚ
  polar_vertices    : ℕ → ℚ
  polar_face_areas  : ℕ → ℕ → ℚ
  cell_volumes      : ℕ → ℕ → ℚ
  cell_centers      : ℕ → ℕ → ℚ × ℚ

/-- `GridGeometry::cell_linear_dimension` (`mesh.rs`): the smallest linear
dimension `min(dr, dq * r)` of cell `(i, j)`. -/
def GridGeometry.cell_linear_dimension (g : GridGeometry) (i j : ℕ) : ℚ :=
  let dr := g.radial_vertices (i + 1) - g.radial_vertices i
  let dq := g.polar_vertices (j + 1) - g.polar_vertices j
  min dr (dq * g.radial_vertices i)

/-- The free function `cell_volume(c0, c1)` of `mesh.rs`. -/
def cell_volume (ops : FloatOps) (c0 c1 : ℚ × ℚ) : ℚ :=
  let dcost := -(ops.cos c1.2 - ops.cos c0.2)
  2 * ops.pi * (c1.1 ^ 3 - c0.1 ^ 3) / 3 * dcost

/-- The free function `face_area(c0, c1)` of `mesh.rs`. -/
def face_area (ops : FloatOps) (c0 c1 : ℚ × ℚ) : ℚ :=
  let s0 := c0.1 * ops.sin c0.2
  let s1 := c1.1 * ops.sin c1.2
  let z0 := c0.1 * ops.cos c0.2
  let z1 := c1.1 * ops.cos c1.2
  let ds := s1 - s0
  let dz := z1 - z0
  ops.pi * (s0 + s1) * ops.sqrt (ds * ds + dz * dz)

/-- `SphericalPolarExtent` (`mesh.rs`). -/
structure SphericalPolarExtent where
  inner_radius : ℚ
  outer_radius : ℚ
  lower_theta : ℚ
  upper_theta : ℚ

/-- `SphericalPolarExtent::centroid`. -/
def SphericalPolarExtent.centroid (ops : FloatOps) (e : SphericalPolarExtent) : ℚ × ℚ :=
  let q := 1 / 2 * (e.lower_theta + e.upper_theta)
  let r := ops.sqrt (e.inner_radius * e.outer_radius)
  (r, q)

/-- `SphericalPolarExtent::volume`. -/
def SphericalPolarExtent.volume (ops : FloatOps) (e : SphericalPolarExtent) : ℚ :=
  cell_volume ops (e.inner_radius, e.lower_theta) (e.outer_radius, e.upper_theta)

/-- `SphericalPolarExtent::face_area_r`. -/
def SphericalPolarExtent.face_area_r (ops : FloatOps) (e : SphericalPolarExtent) : ℚ :=
  face_area ops (e.inner_radius, e.lower_theta) (e.inner_radius, e.upper_theta)

/-- `SphericalPolarExtent::face_area_q`. -/
def SphericalPolarExtent.face_area_q (ops : FloatOps) (e : SphericalPolarExtent) : ℚ :=
  face_area ops (e.inner_radius, e.lower_theta) (e.outer_radius, e.lower_theta)

/-- `SphericalPolarGrid` (`mesh.rs`). -/
structure SphericalPolarGrid where
  extent : SphericalPolarExtent
  num_zones_r : ℕ
  num_zones_q : ℕ

/-- `SphericalPolarExtent::grid`. -/
def SphericalPolarExtent.grid (e : SphericalPolarExtent) (num_zones_r num_zones_q : ℕ) :
    SphericalPolarGrid :=
  { extent := e, num_zones_r := num_zones_r, num_zones_q := num_zones_q }

/-- `SphericalPolarGrid::vertex_coordinate_signed`. -/
def SphericalPolarGrid.vertex_coordinate_signed (ops : FloatOps) (g : SphericalPolarGrid)
    (i j : ℤ) : ℚ × ℚ :=
  let y0 := ops.log10 g.extent.inner_radius
  let y1 := ops.log10 g.extent.outer_radius
  let q0 := g.extent.lower_theta
  let q1 := g.extent.upper_theta
  let dy := (y1 - y0) / (g.num_zones_r : ℚ)
  let dq := (q1 - q0) / (g.num_zones_q : ℚ)
  let y := y0 + dy * (i : ℚ)
  let q := q0 + dq * (j : ℚ)
  (ops.pow10 y, q)

/-- `SphericalPolarGrid::vertex_coordinate`. -/
def SphericalPolarGrid.vertex_coordinate (ops : FloatOps) (g : SphericalPolarGrid)
    (i j : ℕ) : ℚ × ℚ :=
  g.vertex_coordinate_signed ops (i : ℤ) (j : ℤ)

/-- `SphericalPolarGrid::zone_signed`. -/
def SphericalPolarGrid.zone_signed (ops : FloatOps) (g : SphericalPolarGrid)
    (i j : ℤ) : SphericalPolarExtent :=
  let lower := g.vertex_coordinate_signed ops (i + 0) (j + 0)
  let upper := g.vertex_coordinate_signed ops (i + 1) (j + 1)
  { inner_radius := lower.1
    outer_radius := upper.1
    lower_theta := lower.2
    upper_theta := upper.2 }

/-- `SphericalPolarGrid::zone`. -/
def SphericalPolarGrid.zone (ops : FloatOps) (g : SphericalPolarGrid)
    (index : ℕ × ℕ) : SphericalPolarExtent :=
  g.zone_signed ops (index.1 : ℤ) (index.2 : ℤ)

/-- `SphericalPolarGrid::geometry`. -/
def SphericalPolarGrid.geometry (ops : FloatOps) (g : SphericalPolarGrid) : GridGeometry :=
  { radial_vertices   := fun i => (g.vertex_coordinate ops i 0).1
    polar_vertices    := fun j => (g.vertex_coordinate ops 0 j).2
    radial_face_areas := fun i j => (g.zone ops (i, j)).face_area_r ops
    polar_face_areas  := fun i j => (g.zone ops (i, j)).face_area_q ops
    cell_volumes      := fun i j => (g.zone ops (i, j)).volume ops
    cell_centers      := fun i j => (g.zone ops (i, j)).centroid ops }

/-- `Mesh::subgrid_extent`.  The exponent `index.0 as f64` is an integer
cast, so `powf` is the exact integer power. -/
def Mesh.subgrid_extent (ops : FloatOps) (m : Mesh) (index : BlockIndex) :
    SphericalPolarExtent :=
  let qq : ℚ × ℚ :=
    if m.num_polar_zones = 1 then
      (ops.pi * (1 / 2) - m.zone_dlogr ops, ops.pi * (1 / 2) + m.zone_dlogr ops)
    else
      (0, ops.pi)
  { inner_radius := m.reference_radius * (1 + m.block_dlogr ops) ^ (index.1 : ℤ)
    outer_radius := m.reference_radius * (1 + m.block_dlogr ops) ^ (index.1 + 1 : ℤ)
    lower_theta := qq.1
    upper_theta := qq.2 }

/-- `Mesh::subgrid`. -/
def Mesh.subgrid (ops : FloatOps) (m : Mesh) (index : BlockIndex) : SphericalPolarGrid :=
  (m.subgrid_extent ops index).grid m.block_size m.num_polar_zones

/-- `Mesh::smallest_spacing`. -/
def Mesh.smallest_spacing (ops : FloatOps) (m : Mesh) (index : BlockIndex) : ℚ :=
  let zone := (m.subgrid ops index).zone ops (0, 0)
  zone.outer_radius - zone.inner_radius

/-! ## Physics layer (`physics/mod.rs`, `physics/relativistic_hydro.rs`,
`physics/newtonian_hydro.rs`) -/

/-- `Direction` from `physics/mod.rs`. -/
inductive Direction where
  | polar
  | radial
deriving DecidableEq

/-- `RiemannSolver` from `physics/mod.rs`. -/
inductive RiemannSolver where
  | HLLE
  | HLLC
deriving DecidableEq

/-- `RungeKuttaOrder` from the `godunov_core` crate (values `RK1 | RK2 |
RK3`, as documented on the configuration fields). -/
inductive RungeKuttaOrder where
  | RK1
  | RK2
  | RK3
deriving DecidableEq

/-- `hydro_srhd::srhd_2d::Conserved`: a 4-tuple struct
`(lab-frame density, radial momentum, polar momentum, energy)`. -/
structure SrhdConserved where
  d : ℚ
  sr : ℚ
  sq : ℚ
  tau : ℚ
deriving DecidableEq

/-- `hydro_srhd::srhd_2d::Primitive`: a 4-tuple struct
`Primitive(mass_density, gamma_beta_1, gamma_beta_2, gas_pressure)` (the
component order used by `RelativisticHydro::interpret`). -/
structure SrhdPrimitive where
  rho : ℚ
  u1 : ℚ
  u2 : ℚ
  pre : ℚ
deriving DecidableEq

/-- `hydro_srhd::srhd_2d::RecoveredPrimitive`: the three outcomes of the
external pressure root-find. -/
inductive RecoveredPrimitive where
  | success (p : SrhdPrimitive)
  | negativePressure (p : SrhdPrimitive)
  | rootFinderFailed (u : SrhdConserved)
deriving DecidableEq

/-- `HydroErrorType` from `physics/mod.rs`. -/
inductive HydroErrorType where
  | negativeDensity (d : ℚ)
  | negativePressure (p : ℚ)
  | negativeEnergyDensity (e : ℚ)
  | rootFinderFailed (u : SrhdConserved)
deriving DecidableEq

/-- `HydroError` from `physics/mod.rs`: a hydro error together with the
position where it occurred. -/
structure HydroError where
  source : HydroErrorType
  position : ℚ × ℚ
deriving DecidableEq

/-- `HydroErrorType::at_position` from `physics/mod.rs`. -/
def HydroErrorType.at_position (e : HydroErrorType) (position : ℚ × ℚ) : HydroError :=
  { source := e, position := position }

/-- `AnyPrimitive` from `physics/mod.rs`. -/
structure AnyPrimitive where
  velocity_r : ℚ
  velocity_q : ℚ
  mass_density : ℚ
  gas_pressure : ℚ
deriving DecidableEq

/-- The functions of the external `hydro_srhd` and `godunov_core` crates
used by `RelativisticHydro`.  These crates are not part of this repository:
each field is an opaque parameter of the embedding, named after the crate
method it stands for. -/
structure SrhdExt where
  /-- `Conserved::lab_frame_density`. -/
  lab_frame_density : SrhdConserved → ℚ
  /-- `Conserved::energy_density`. -/
  energy_density : SrhdConserved → ℚ
  /-- `Conserved::to_primitive(gamma_law_index)` — the pressure root-find. -/
  to_primitive : ℚ → SrhdConserved → RecoveredPrimitive
  /-- `Primitive::to_conserved(gamma_law_index)`. -/
  to_conserved : ℚ → SrhdPrimitive → SrhdConserved
  /-- `Primitive::max_signal_speed(gamma_law_index)`. -/
  max_signal_speed : ℚ → SrhdPrimitive → ℚ
  /-- `Primitive::lorentz_factor_squared`. -/
  lorentz_factor_squared : SrhdPrimitive → ℚ
  /-- `Primitive::specific_enthalpy(gamma_law_index)`. -/
  specific_enthalpy : ℚ → SrhdPrimitive → ℚ
  /-- `Primitive::spherical_geometry_source_terms(r, q, gamma_law_index)`. -/
  spherical_geometry_source_terms : SrhdPrimitive → ℚ → ℚ → ℚ → SrhdConserved
  /-- `srhd_2d::riemann_hllc_scalar` (returns `(f, g, _)`; the unused third
  component is dropped). -/
  riemann_hllc_scalar : SrhdPrimitive → SrhdPrimitive → ℚ → ℚ → Direction → ℚ →
    RiemannSolver → SrhdConserved × ℚ
  /-- `godunov_core::piecewise_linear::plm_gradient4(plm_theta, a, b, c)`. -/
  plm_gradient4 : ℚ → SrhdPrimitive → SrhdPrimitive → SrhdPrimitive → SrhdPrimitive
  /-- `godunov_core::piecewise_linear::plm_gradient(plm_theta, a, b, c)`. -/
  plm_gradient : ℚ → ℚ → ℚ → ℚ → ℚ

/-- `RelativisticHydro` from `physics/relativistic_hydro.rs`
(configuration fields only). -/
structure RelativisticHydro where
  gamma_law_index : ℚ
  plm_theta : ℚ
  cfl_number : ℚ
  runge_kutta_order : RungeKuttaOrder
  riemann_solver : RiemannSolver
  adaptive_time_step : Bool

/-- `RelativisticHydro::validate`.  In the source the `cfl_number` range
check is commented out ("commented out for now to allow to force a
particular time step"); only the `plm_theta` check remains. -/
def RelativisticHydro.validate (h : RelativisticHydro) : Except String Unit :=
  if h.plm_theta < 1 ∨ h.plm_theta > 2 then
    .error "plm_theta must be in the range [1, 2]"
  else
    .ok ()

/-- `RelativisticHydro::try_to_primitive`. -/
def RelativisticHydro.try_to_primitive (h : RelativisticHydro) (ext : SrhdExt)
    (u : SrhdConserved) : Except HydroErrorType SrhdPrimitive :=
  if ext.lab_frame_density u < 0 then
    .error (.negativeDensity (ext.lab_frame_density u))
  else if ext.energy_density u < 0 then
    .error (.negativeEnergyDensity (ext.energy_density u))
  else
    match ext.to_primitive h.gamma_law_index u with
    | .success p => .ok p
    | .negativePressure p => .ok ⟨p.rho, p.u1, p.u2, 1 / 1000 * p.rho⟩
    | .rootFinderFailed w => .error (.rootFinderFailed w)

/-- `RelativisticHydro::global_signal_speed`. -/
def RelativisticHydro.global_signal_speed (h : RelativisticHydro) : Option ℚ :=
  if h.adaptive_time_step then none else some LIGHT_SPEED

/-- `NewtonianHydro` from `physics/newtonian_hydro.rs`
(configuration fields only). -/
structure NewtonianHydro where
  gamma_law_index : ℚ
  plm_theta : ℚ
  cfl_number : ℚ
  runge_kutta_order : RungeKuttaOrder

/-- `NewtonianHydro::validate`. -/
def NewtonianHydro.validate (h : NewtonianHydro) : Except String Unit :=
  if h.plm_theta < 1 ∨ h.plm_theta > 2 then
    .error "plm_theta must be in the range [1, 2]"
  else if h.cfl_number < 0 ∨ h.cfl_number > 7 / 10 then
    .error "cfl_number must be in the range [0.0, 0.7]"
  else
    .ok ()

/-- The `Hydrodynamics` capability interface (`traits.rs`), as a record of
the operations consumed by the state and scheme code, over a conserved type
`C` and a primitive type `P`.  `gravitational_source_terms` is the method
defined by the two back-end impl blocks. -/
structure Hydro (C P : Type) where
  cfl_number : ℚ
  global_signal_speed : Option ℚ
  max_signal_speed : P → ℚ
  try_to_primitive : C → Except HydroErrorType P
  to_primitive : C → P
  to_conserved : P → C
  lab_frame_mass : C → ℚ
  lorentz_factor : P → ℚ
  plm_gradient_primitive : P → P → P → P
  plm_gradient_scalar : ℚ → ℚ → ℚ → ℚ
  intercell_flux : P → P → ℚ → ℚ → Direction → C × ℚ
  geometrical_source_terms : P → ℚ × ℚ → C
  gravitational_source_terms : P → ℚ × ℚ → C
  interpret : AnyPrimitive → P

/-! ### Galactic model (`galmod.rs`) -/

/-- `GalacticModel` from `galmod.rs`. -/
structure GalacticModel where
  g : ℚ
  m_b : ℚ
  a_b : ℚ
  v_h : ℚ
  a_h : ℚ
  m_s : ℚ
  a_s : ℚ
  b_s : ℚ
  m_g : ℚ
  a_g : ℚ
  b_g : ℚ

/-- `ModelComponents` from `galmod.rs`. -/
structure ModelComponents where
  bulge : ℚ
  thin_disk : ℚ
  thick_disk : ℚ
  halo : ℚ

/-- `ModelComponents::total`. -/
def ModelComponents.total (c : ModelComponents) : ℚ :=
  c.bulge + c.thin_disk + c.thick_disk + c.halo

/-- `GalacticModel::g_field_z` from `galmod.rs`: the z-component of the
gravitational field. -/
def GalacticModel.g_field_z (ops : FloatOps) (gm : GalacticModel) (r z : ℚ) :
    ModelComponents :=
  let bulge := -gm.g * gm.m_b * z / ops.powf (r * r + z * z + gm.a_b * gm.a_b) (3 / 2)
  let thin_disk := -gm.g * gm.m_b * z * (gm.a_s + ops.sqrt (z * z + gm.b_s * gm.b_s)) /
    ops.powf (r * r + (gm.a_s + ops.sqrt (z * z + gm.b_s * gm.b_s)) ^ 2) (3 / 2) /
    ops.sqrt (z * z + gm.b_s * gm.b_s)
  let thick_disk := -gm.g * gm.m_b * z * (gm.a_g + ops.sqrt (z * z + gm.b_g * gm.b_g)) /
    ops.powf (r * r + (gm.a_g + ops.sqrt (z * z + gm.b_g * gm.b_g)) ^ 2) (3 / 2) /
    ops.sqrt (z * z + gm.b_g * gm.b_g)
  let halo := -gm.v_h * gm.v_h * z / (r * r + z * z + gm.a_h * gm.a_h)
  { bulge := bulge, thin_disk := thin_disk, thick_disk := thick_disk, halo := halo }

/-- The hard-coded `GalacticModel` literal inside
`RelativisticHydro::gravitational_source_terms`. -/
def relativisticGalacticModel : GalacticModel :=
  { g := 667 / 10000000000
    m_b := 3377 * 10 ^ 40
    a_b := 898 * 10 ^ 18
    v_h := 1923 * 10 ^ 4
    a_h := 926 * 10 ^ 20
    m_s := 1538 * 10 ^ 41
    a_s := 1461 * 10 ^ 19
    b_s := 1790 * 10 ^ 18
    m_g := 5434 * 10 ^ 40
    a_g := 1461 * 10 ^ 19
    b_g := 7035 * 10 ^ 20 }

/-- `RelativisticHydro::gravitational_source_terms`. -/
def RelativisticHydro.gravitational_source_terms (h : RelativisticHydro) (ops : FloatOps)
    (ext : SrhdExt) (p : SrhdPrimitive) (coordinate : ℚ × ℚ) : SrhdConserved :=
  let h0 := ext.specific_enthalpy h.gamma_law_index p
  let gmod := relativisticGalacticModel
  let cosq := ops.cos coordinate.2
  let sinq := ops.sin coordinate.2
  let gz := (gmod.g_field_z ops (10 ^ 22) (coordinate.1 * cosq + 15 * 10 ^ 19)).total
  let lf := ops.sqrt (ext.lorentz_factor_squared p)
  let gd : ℚ := 0
  let gr := lf * p.rho * h0 * gz * cosq / LIGHT_SPEED / LIGHT_SPEED
  let gq := -lf * p.rho * h0 * gz * sinq / LIGHT_SPEED / LIGHT_SPEED
  let ge := lf * p.rho * h0 * gz * cosq / LIGHT_SPEED * (p.u1 * cosq - p.u2 * sinq)
  ⟨gd, gr, gq, ge⟩

/-! ### The back-end `Hydrodynamics` impls as `Hydro` records -/

/-- Arithmetic on `SrhdConserved` (the crate's `Conserved` implements
`Add`, `Sub`, and scalar `Mul`/`Div`, componentwise). -/
instance : Add SrhdConserved :=
  ⟨fun a b => ⟨a.d + b.d, a.sr + b.sr, a.sq + b.sq, a.tau + b.tau⟩⟩

instance : Sub SrhdConserved :=
  ⟨fun a b => ⟨a.d - b.d, a.sr - b.sr, a.sq - b.sq, a.tau - b.tau⟩⟩

instance : Neg SrhdConserved :=
  ⟨fun a => ⟨-a.d, -a.sr, -a.sq, -a.tau⟩⟩

instance : Zero SrhdConserved :=
  ⟨⟨0, 0, 0, 0⟩⟩

instance : SMul ℚ SrhdConserved :=
  ⟨fun q a => ⟨q * a.d, q * a.sr, q * a.sq, q * a.tau⟩⟩

/-- Arithmetic on `SrhdPrimitive` (componentwise, as in the crate). -/
instance : Add SrhdPrimitive :=
  ⟨fun a b => ⟨a.rho + b.rho, a.u1 + b.u1, a.u2 + b.u2, a.pre + b.pre⟩⟩

instance : Sub SrhdPrimitive :=
  ⟨fun a b => ⟨a.rho - b.rho, a.u1 - b.u1, a.u2 - b.u2, a.pre - b.pre⟩⟩

instance : Neg SrhdPrimitive :=
  ⟨fun a => ⟨-a.rho, -a.u1, -a.u2, -a.pre⟩⟩

instance : Zero SrhdPrimitive :=
  ⟨⟨0, 0, 0, 0⟩⟩

instance : SMul ℚ SrhdPrimitive :=
  ⟨fun q a => ⟨q * a.rho, q * a.u1, q * a.u2, q * a.pre⟩⟩

/-- The `impl Hydrodynamics for RelativisticHydro` block as a `Hydro`
record.  `to_primitive` is `try_to_primitive(u).unwrap()`; its panicking
branch is modelled by the zero primitive (no theorem below reaches it). -/
def RelativisticHydro.toHydro (h : RelativisticHydro) (ops : FloatOps) (ext : SrhdExt) :
    Hydro SrhdConserved SrhdPrimitive :=
  { cfl_number := h.cfl_number
    global_signal_speed := h.global_signal_speed
    max_signal_speed := fun p => ext.max_signal_speed h.gamma_law_index p * LIGHT_SPEED
    try_to_primitive := h.try_to_primitive ext
    to_primitive := fun u =>
      match h.try_to_primitive ext u with
      | .ok p => p
      | .error _ => 0
    to_conserved := fun p => ext.to_conserved h.gamma_law_index p
    lab_frame_mass := fun u => ext.lab_frame_density u
    lorentz_factor := fun p => ops.sqrt (ext.lorentz_factor_squared p)
    plm_gradient_primitive := fun a b c => ext.plm_gradient4 h.plm_theta a b c
    plm_gradient_scalar := fun a b c => ext.plm_gradient h.plm_theta a b c
    intercell_flux := fun pl pr sl sr direction =>
      let fg := ext.riemann_hllc_scalar pl pr sl sr direction h.gamma_law_index h.riemann_solver
      (LIGHT_SPEED • fg.1, fg.2 * LIGHT_SPEED)
    geometrical_source_terms := fun p coordinate =>
      LIGHT_SPEED • ext.spherical_geometry_source_terms p coordinate.1 coordinate.2
        h.gamma_law_index
    gravitational_source_terms := fun p coordinate =>
      h.gravitational_source_terms ops ext p coordinate
    interpret := fun a => ⟨a.mass_density, a.velocity_r, a.velocity_q, a.gas_pressure⟩ }

/-! ## Solution state (`state.rs`) -/

/-- The `InitialModel` capability interface (`traits.rs`). -/
structure InitialModel where
  primitive_at : ℚ × ℚ → ℚ → AnyPrimitive
  scalar_at : ℚ × ℚ → ℚ → ℚ

/-- Association-list lookup, the model of `HashMap` key access. -/
def lookupKey {κ β : Type} [DecidableEq κ] : List (κ × β) → κ → Option β
  | [], _ => none
  | kv :: rest, k => if kv.1 = k then some kv.2 else lookupKey rest k

/-- The row-major cell index list of an `(nr, nq)`-shaped `ndarray`: the
order of `iter()` and of `Array::from_shape_fn` traversals. -/
def cellsRowMajor (nr nq : ℕ) : List (ℕ × ℕ) :=
  (List.range nr).flatMap (fun i => (List.range nq).map (fun j => (i, j)))

/-- `collect::<Result<Vec<_>, _>>()`: the first error (in list order) wins. -/
def collectExcept {ε α : Type} : List (Except ε α) → Except ε (List α)
  | [] => .ok []
  | x :: xs => do
    let a ← x
    let rest ← collectExcept xs
    pure (a :: rest)

/-- `BlockState` (`state.rs`): the per-block conserved and scalar-mass
arrays, modelled as index functions of shape `(block_size,
num_polar_zones)`. -/
structure BlockState (C : Type) where
  conserved : ℕ → ℕ → C
  scalar_mass : ℕ → ℕ → ℚ

/-- `State` (`state.rs`): the full solution state.  The `HashMap` of blocks
is modelled as an association list with pairwise-distinct keys. -/
structure State (C : Type) where
  time : ℚ
  iteration : ℚ
  solution : List (BlockIndex × BlockState C)

/-- `BlockState::from_model` (`state.rs`). -/
def BlockState.from_model {C P : Type} [SMul ℚ C] (model : InitialModel) (hydro : Hydro C P)
    (geometry : GridGeometry) (time : ℚ) : BlockState C :=
  let scalar := fun i j => model.scalar_at (geometry.cell_centers i j) time
  let primitive := fun i j => hydro.interpret (model.primitive_at (geometry.cell_centers i j) time)
  let conserved := fun i j => geometry.cell_volumes i j • hydro.to_conserved (primitive i j)
  { conserved := conserved
    scalar_mass := fun i j => hydro.lab_frame_mass (conserved i j) * scalar i j }

/-- `BlockState::try_to_primitive` (`state.rs`): divide the conserved array
by the cell volumes and convert every cell, attaching the cell's `(r, q)`
center to the first error (the row-major `collect` order). -/
def BlockState.try_to_primitive {C P : Type} [SMul ℚ C] (hydro : Hydro C P)
    (geometry : GridGeometry) (nr nq : ℕ) (bs : BlockState C) :
    Except HydroError (List P) :=
  collectExcept ((cellsRowMajor nr nq).map (fun ij =>
    (hydro.try_to_primitive ((geometry.cell_volumes ij.1 ij.2)⁻¹ • bs.conserved ij.1 ij.2)).mapError
      (fun e => e.at_position (geometry.cell_centers ij.1 ij.2))))

/-- `State::min_max_block_indexes_offset_by` (`state.rs`).  The fold starts
from `((i32::MAX, 0), (i32::MIN, 0))` and never updates the polar
components. -/
def State.min_max_block_indexes_offset_by {C : Type} (s : State C) (delta : ℤ) :
    BlockIndex × BlockIndex :=
  s.solution.foldl
    (fun mm kv =>
      ((min mm.1.1 (kv.1.1 - delta), mm.1.2), (max mm.2.1 (kv.1.1 + delta), mm.2.2)))
    ((i32MAX, 0), (i32MIN, 0))

/-- `State::inner_outer_boundary_indexes`. -/
def State.inner_outer_boundary_indexes {C : Type} (s : State C) : BlockIndex × BlockIndex :=
  s.min_max_block_indexes_offset_by 1

/-- `State::inner_outer_block_indexes`. -/
def State.inner_outer_block_indexes {C : Type} (s : State C) : BlockIndex × BlockIndex :=
  s.min_max_block_indexes_offset_by 0

/-- The per-block body of `State::time_step`'s adaptive `try_fold`
(`state.rs`): convert the block to primitives, fold the per-cell
`dl / max_signal_speed` minimum starting from the accumulator. -/
def timeStepBlock {C P : Type} [SMul ℚ C] (ops : FloatOps) (hydro : Hydro C P)
    (mesh : Mesh) (dt : ℚ) (kv : BlockIndex × BlockState C) : Except HydroError ℚ := do
  let geometry := (mesh.subgrid ops kv.1).geometry ops
  let ps ← kv.2.try_to_primitive hydro geometry mesh.block_size mesh.num_polar_zones
  let dls := (cellsRowMajor mesh.block_size mesh.num_polar_zones).map
    (fun ij => geometry.cell_linear_dimension ij.1 ij.2)
  let block_dt := (ps.zip dls).foldl
    (fun a pdl => min a (pdl.2 / hydro.max_signal_speed pdl.1)) dt
  pure (min dt block_dt)

/-- `State::time_step` (`state.rs`): the global-signal-speed branch uses the
innermost block's smallest spacing; the adaptive branch try-folds the
per-cell `dl / max_signal_speed` minimum over every block, starting from
`f64::MAX`, and multiplies by the CFL number. -/
def State.time_step {C P : Type} [SMul ℚ C] (ops : FloatOps) (hydro : Hydro C P)
    (mesh : Mesh) (s : State C) : Except HydroError ℚ :=
  match hydro.global_signal_speed with
  | some max_signal_speed =>
    .ok (hydro.cfl_number * mesh.smallest_spacing ops s.inner_outer_block_indexes.1 /
      max_signal_speed)
  | none => do
    let d ← s.solution.foldlM (timeStepBlock ops hydro mesh) f64MAX
    pure (d * hydro.cfl_number)

/-- `impl WeightedAverage for BlockState` (`state.rs`):
`u1 * (1 - b) + u0 * b` componentwise. -/
def BlockState.weighted_average {C : Type} [Add C] [SMul ℚ C] (s1 : BlockState C) (br : ℚ)
    (s0 : BlockState C) : BlockState C :=
  { conserved := fun i j => (-br + 1) • s1.conserved i j + br • s0.conserved i j
    scalar_mass := fun i j => s1.scalar_mass i j * (-br + 1) + s0.scalar_mass i j * br }

/-- `impl WeightedAverage for State` (`state.rs`).  The indexing
`s0.solution[&index]` panics when the key is absent; the panic is modelled
by `none`. -/
def State.weighted_average {C : Type} [Add C] [SMul ℚ C] (s1 : State C) (br : ℚ)
    (s0 : State C) : Option (State C) := do
  let sol ← s1.solution.mapM (fun kv =>
    (lookupKey s0.solution kv.1).map (fun b0 => (kv.1, kv.2.weighted_average br b0)))
  pure { time := s1.time * (-br + 1) + s0.time * br
         iteration := s1.iteration * (-br + 1) + s0.iteration * br
         solution := sol }

/-! ## Scheme (`scheme.rs`) -/

/-- `HashMap::remove`, on the association-list model. -/
def removeKey {κ β : Type} [DecidableEq κ] (l : List (κ × β)) (k : κ) : List (κ × β) :=
  l.filter (fun kv => kv.1 ≠ k)

/-- `HashMap::insert`, on the association-list model: replace the value at
an existing key, else append. -/
def insertKey {κ β : Type} [DecidableEq κ] : List (κ × β) → κ → β → List (κ × β)
  | [], k, v => [(k, v)]
  | kv :: rest, k, v => if kv.1 = k then (k, v) :: rest else kv :: insertKey rest k v

/-- The staging pass of `advance_rk`
(`stage_primitive_and_scalar`): primitives from conserved over volume,
scalar concentration from scalar mass over volume over Lorentz factor. -/
def stageOf {C P : Type} [SMul ℚ C] (hydro : Hydro C P) (bs : BlockState C)
    (geometry : GridGeometry) : (ℕ → ℕ → P) × (ℕ → ℕ → ℚ) :=
  let p := fun i j => hydro.to_primitive ((geometry.cell_volumes i j)⁻¹ • bs.conserved i j)
  (p, fun i j => bs.scalar_mass i j / geometry.cell_volumes i j / hydro.lorentz_factor (p i j))

/-- The radial ghost-zone assembly of `advance_rk`: the last two radial rows
of the left block, the block itself, and the first two radial rows of the
right block (`concatenate(Axis(0), [pl.slice(s![-2.., ..]), p0.view(),
pr.slice(s![..2, ..])])`). -/
def extendRadial {α : Type} (nr : ℕ) (l c r : ℕ → ℕ → α) : ℕ → ℕ → α := fun i j =>
  if i < 2 then l (nr - 2 + i) j
  else if i < nr + 2 then c (i - 2) j
  else r (i - (nr + 2)) j

/-- `ndarray_ops::map_stencil3` along `Axis(0)`. -/
def stencilX {α β : Type} (f : α → α → α → β) (a : ℕ → ℕ → α) : ℕ → ℕ → β :=
  fun i j => f (a i j) (a (i + 1) j) (a (i + 2) j)

/-- `ndarray_ops::map_stencil3` along `Axis(1)`. -/
def stencilY {α β : Type} (f : α → α → α → β) (a : ℕ → ℕ → α) : ℕ → ℕ → β :=
  fun i j => f (a i j) (a i (j + 1)) (a i (j + 2))

/-- The `godunov_x` array of `advance_rk`: the Riemann flux at radial face
`(i, j)` of a block, from the PLM-reconstructed states on either side of
the face. -/
def blockGodunovX {C P : Type} [AddCommGroup P] [Module ℚ P] (hydro : Hydro C P) (nr : ℕ)
    (pl p0 pr : ℕ → ℕ → P) (sl s0 sr : ℕ → ℕ → ℚ) : ℕ → ℕ → C × ℚ :=
  let pe := extendRadial nr pl p0 pr
  let se := extendRadial nr sl s0 sr
  let gx := stencilX hydro.plm_gradient_primitive pe
  let hx := stencilX hydro.plm_gradient_scalar se
  fun i j =>
    hydro.intercell_flux
      (pe (i + 1) j + (1 / 2 : ℚ) • gx i j) (pe (i + 2) j - (1 / 2 : ℚ) • gx (i + 1) j)
      (se (i + 1) j + hx i j * (1 / 2)) (se (i + 2) j - hx (i + 1) j * (1 / 2))
      .radial

/-- The `godunov_y` array of `advance_rk` (2-D branch): the Riemann flux at
polar face `(i, j + 1)` of a block; the `map_stencil3` gradients along
`Axis(1)` are padded with one default row on each side
(`extend_default_2d(gy, 0, 0, 1, 1)`), so the reconstruction slope vanishes
at the polar boundaries. -/
def blockGodunovY {C P : Type} [AddCommGroup P] [Module ℚ P] (hydro : Hydro C P) (nr nq : ℕ)
    (pl p0 pr : ℕ → ℕ → P) (sl s0 sr : ℕ → ℕ → ℚ) : ℕ → ℕ → C × ℚ :=
  let pe := extendRadial nr pl p0 pr
  let se := extendRadial nr sl s0 sr
  let gy := fun i j => if 1 ≤ j ∧ j + 1 < nq then stencilY hydro.plm_gradient_primitive pe i (j - 1) else 0
  let hy := fun i j => if 1 ≤ j ∧ j + 1 < nq then stencilY hydro.plm_gradient_scalar se i (j - 1) else 0
  fun i j =>
    hydro.intercell_flux
      (pe (i + 2) j + (1 / 2 : ℚ) • gy (i + 2) j) (pe (i + 2) (j + 1) - (1 / 2 : ℚ) • gy (i + 2) (j + 1))
      (se (i + 2) j + hy (i + 2) j * (1 / 2)) (se (i + 2) (j + 1) - hy (i + 2) (j + 1) * (1 / 2))
      .polar

/-- The `fx` array of `advance_rk`: conserved Riemann flux times radial
face area, at radial face `(i, j)`. -/
def fluxFx {C P : Type} [AddCommGroup C] [Module ℚ C] [AddCommGroup P] [Module ℚ P]
    (hydro : Hydro C P) (geometry : GridGeometry) (nr : ℕ)
    (pl p0 pr : ℕ → ℕ → P) (sl s0 sr : ℕ → ℕ → ℚ) : ℕ → ℕ → C :=
  fun i j => geometry.radial_face_areas i j • (blockGodunovX hydro nr pl p0 pr sl s0 sr i j).1

/-- The `gx` scalar-flux array of `advance_rk`: scalar-mass Riemann flux
times radial face area. -/
def fluxGx {C P : Type} [AddCommGroup P] [Module ℚ P]
    (hydro : Hydro C P) (geometry : GridGeometry) (nr : ℕ)
    (pl p0 pr : ℕ → ℕ → P) (sl s0 sr : ℕ → ℕ → ℚ) : ℕ → ℕ → ℚ :=
  fun i j => (blockGodunovX hydro nr pl p0 pr sl s0 sr i j).2 * geometry.radial_face_areas i j

/-- The `fy` array of `advance_rk` (2-D branch): padded conserved polar
Riemann flux times polar face area, at polar face `(i, j)`; the pad makes
the `j = 0` and `j = nq` polar boundary faces contribute no flux. -/
def fluxFy {C P : Type} [AddCommGroup C] [Module ℚ C] [AddCommGroup P] [Module ℚ P]
    (hydro : Hydro C P) (geometry : GridGeometry) (nr nq : ℕ)
    (pl p0 pr : ℕ → ℕ → P) (sl s0 sr : ℕ → ℕ → ℚ) : ℕ → ℕ → C :=
  fun i j =>
    geometry.polar_face_areas i j •
      (if 1 ≤ j ∧ j < nq then (blockGodunovY hydro nr nq pl p0 pr sl s0 sr i (j - 1)).1 else 0)

/-- The `gy` scalar-flux array of `advance_rk` (2-D branch). -/
def fluxGy {C P : Type} [AddCommGroup P] [Module ℚ P]
    (hydro : Hydro C P) (geometry : GridGeometry) (nr nq : ℕ)
    (pl p0 pr : ℕ → ℕ → P) (sl s0 sr : ℕ → ℕ → ℚ) : ℕ → ℕ → ℚ :=
  fun i j =>
    (if 1 ≤ j ∧ j < nq then (blockGodunovY hydro nr nq pl p0 pr sl s0 sr i (j - 1)).2 else 0) *
      geometry.polar_face_areas i j

/-- The geometric source array `sc` of `advance_rk`: geometric source term
of the staged primitive at the cell center, times the cell volume. -/
def sourceSc {C P : Type} [SMul ℚ C] (hydro : Hydro C P) (geometry : GridGeometry)
    (p0 : ℕ → ℕ → P) : ℕ → ℕ → C :=
  fun i j => geometry.cell_volumes i j •
    hydro.geometrical_source_terms (p0 i j) (geometry.cell_centers i j)

/-- The per-block finite-volume update of `advance_rk` (the body of the
`entry` task): apply the flux divergence and geometric source over one
trial step `dt` to the block's conserved and scalar-mass arrays. -/
def blockUpdate {C P : Type} [AddCommGroup C] [Module ℚ C] [AddCommGroup P] [Module ℚ P]
    (hydro : Hydro C P) (geometry : GridGeometry) (dt : ℚ) (one_dimensional : Bool)
    (nr nq : ℕ) (pl p0 pr : ℕ → ℕ → P) (sl s0 sr : ℕ → ℕ → ℚ) (bs : BlockState C) :
    BlockState C :=
  let fx := fluxFx hydro geometry nr pl p0 pr sl s0 sr
  let gx := fluxGx hydro geometry nr pl p0 pr sl s0 sr
  let sc := sourceSc hydro geometry p0
  if one_dimensional then
    { conserved := fun i j => bs.conserved i j + dt • (sc i j - (fx (i + 1) j - fx i j))
      scalar_mass := fun i j => bs.scalar_mass i j + (gx (i + 1) j - gx i j) * (-dt) }
  else
    let fy := fluxFy hydro geometry nr nq pl p0 pr sl s0 sr
    let gy := fluxGy hydro geometry nr nq pl p0 pr sl s0 sr
    { conserved := fun i j => bs.conserved i j +
        dt • (sc i j - (fx (i + 1) j - fx i j) - (fy i (j + 1) - fy i j))
      scalar_mass := fun i j => bs.scalar_mass i j +
        ((gx (i + 1) j - gx i j) + (gy i (j + 1) - gy i j)) * (-dt) }

/-- `advance_rk` (`scheme.rs`): stage primitives for every block and for the
two model-synthesised boundary ghost blocks, update every block from its
stencil neighbours, and advance `time` by `dt` and `iteration` by `1`.
A missing stencil neighbour or geometry entry panics in the source
(`stage_map[&il]`, `geometry[index]`); the panic is modelled by `none`. -/
def advance_rk {C P : Type} [AddCommGroup C] [Module ℚ C] [AddCommGroup P] [Module ℚ P]
    (ops : FloatOps) (hydro : Hydro C P) (model : InitialModel) (mesh : Mesh)
    (geometry : List (BlockIndex × GridGeometry)) (state : State C) (dt : ℚ) :
    Option (State C) :=
  let one_dimensional := mesh.num_polar_zones = 1
  let inner_bnd_index := state.inner_outer_boundary_indexes.1
  let outer_bnd_index := state.inner_outer_boundary_indexes.2
  let inner_bnd_geom := (mesh.subgrid ops inner_bnd_index).geometry ops
  let outer_bnd_geom := (mesh.subgrid ops outer_bnd_index).geometry ops
  let stage : BlockIndex → Option ((ℕ → ℕ → P) × (ℕ → ℕ → ℚ)) := fun idx =>
    if idx = outer_bnd_index then
      some (stageOf hydro (BlockState.from_model model hydro outer_bnd_geom state.time) outer_bnd_geom)
    else if idx = inner_bnd_index then
      some (stageOf hydro (BlockState.from_model model hydro inner_bnd_geom state.time) inner_bnd_geom)
    else
      (lookupKey state.solution idx).bind fun bs =>
        (lookupKey geometry idx).map fun g => stageOf hydro bs g
  do
    let sol ← state.solution.mapM (fun kv => do
      let g ← lookupKey geometry kv.1
      let l ← stage (kv.1.1 - 1, kv.1.2)
      let c ← stage kv.1
      let r ← stage (kv.1.1 + 1, kv.1.2)
      pure (kv.1, blockUpdate hydro g dt one_dimensional mesh.block_size mesh.num_polar_zones
        l.1 c.1 r.1 l.2 c.2 r.2 kv.2))
    pure { time := state.time + dt, iteration := state.iteration + 1, solution := sol }

/-- `add_remove_blocks` (`scheme.rs`): remove the innermost block when its
outer radius is inside the IES; insert a model-initialised block one index
past the outermost block when the outermost block's outer radius is inside
the OES. -/
def add_remove_blocks {C P : Type} [SMul ℚ C] (ops : FloatOps) (hydro : Hydro C P)
    (model : InitialModel) (mesh : Mesh) (state : State C)
    (geometry : List (BlockIndex × GridGeometry)) :
    State C × List (BlockIndex × GridGeometry) :=
  let inner_index := state.inner_outer_block_indexes.1
  let outer_index := state.inner_outer_block_indexes.2
  let remove_condition :=
    (mesh.subgrid_extent ops inner_index).outer_radius <
      mesh.inner_excision_surface state.time
  let insert_condition :=
    (mesh.subgrid_extent ops outer_index).outer_radius <
      mesh.outer_excision_surface state.time
  let new_block_index : BlockIndex := (outer_index.1 + 1, outer_index.2)
  let new_block_geometry := (mesh.subgrid ops new_block_index).geometry ops
  let new_block_state := BlockState.from_model model hydro new_block_geometry state.time
  let solution1 := if remove_condition then removeKey state.solution inner_index
    else state.solution
  let geometry1 := if remove_condition then removeKey geometry inner_index else geometry
  let solution2 := if insert_condition then insertKey solution1 new_block_index new_block_state
    else solution1
  let geometry2 := if insert_condition then insertKey geometry1 new_block_index new_block_geometry
    else geometry1
  ({ state with solution := solution2 }, geometry2)

/-- The Runge-Kutta stage composition applied by the integration driver.
Modelled from the spec: the `advance_async` composition lives in the
external `godunov_core` crate; §4.5 of the spec describes it as a series of
whole-mesh advance calls mixed with the rational weighted-average operator
(no average for RK1, weight 1/2 for RK2, weights 3/4 and 1/3 for RK3). -/
def rkStep {C : Type} [Add C] [SMul ℚ C] (order : RungeKuttaOrder)
    (advance : State C → Option (State C)) (s : State C) : Option (State C) :=
  match order with
  | .RK1 => advance s
  | .RK2 => do
    let s1 ← advance s
    let s2 ← advance s1
    s2.weighted_average (1 / 2) s
  | .RK3 => do
    let s1 ← advance s
    let s2a ← advance s1
    let s2 ← s2a.weighted_average (3 / 4) s
    let s3a ← advance s2
    s3a.weighted_average (1 / 3) s

/-! ## YAML configuration patching (`yaml_patch.rs`)

`serde_yaml::Value` is modelled as a rose tree; a `Mapping` is an
insertion-ordered key-value sequence with pairwise-distinct keys
(`IndexMap`), modelled as an association list.  YAML numbers are modelled
as rationals. -/

/-- `serde_yaml::Value`. -/
inductive Value where
  | null : Value
  | bool (b : Bool) : Value
  | num (n : ℚ) : Value
  | str (s : String) : Value
  | seq (l : List Value) : Value
  | map (m : List (Value × Value)) : Value

mutual

/-- Decidable equality of `Value` (written by hand: the nested inductive
defeats the derive handler). -/
def Value.decEq : (a b : Value) → Decidable (a = b)
  | .null, .null => isTrue rfl
  | .null, .bool _ => isFalse nofun
  | .null, .num _ => isFalse nofun
  | .null, .str _ => isFalse nofun
  | .null, .seq _ => isFalse nofun
  | .null, .map _ => isFalse nofun
  | .bool _, .null => isFalse nofun
  | .bool a, .bool b =>
    if h : a = b then isTrue (congrArg Value.bool h)
    else isFalse (fun hh => by cases hh; exact h rfl)
  | .bool _, .num _ => isFalse nofun
  | .bool _, .str _ => isFalse nofun
  | .bool _, .seq _ => isFalse nofun
  | .bool _, .map _ => isFalse nofun
  | .num _, .null => isFalse nofun
  | .num _, .bool _ => isFalse nofun
  | .num a, .num b =>
    if h : a = b then isTrue (congrArg Value.num h)
    else isFalse (fun hh => by cases hh; exact h rfl)
  | .num _, .str _ => isFalse nofun
  | .num _, .seq _ => isFalse nofun
  | .num _, .map _ => isFalse nofun
  | .str _, .null => isFalse nofun
  | .str _, .bool _ => isFalse nofun
  | .str _, .num _ => isFalse nofun
  | .str a, .str b =>
    if h : a = b then isTrue (congrArg Value.str h)
    else isFalse (fun hh => by cases hh; exact h rfl)
  | .str _, .seq _ => isFalse nofun
  | .str _, .map _ => isFalse nofun
  | .seq _, .null => isFalse nofun
  | .seq _, .bool _ => isFalse nofun
  | .seq _, .num _ => isFalse nofun
  | .seq _, .str _ => isFalse nofun
  | .seq a, .seq b =>
    match Value.decEqList a b with
    | isTrue h => isTrue (congrArg Value.seq h)
    | isFalse h => isFalse (fun hh => by cases hh; exact h rfl)
  | .seq _, .map _ => isFalse nofun
  | .map _, .null => isFalse nofun
  | .map _, .bool _ => isFalse nofun
  | .map _, .num _ => isFalse nofun
  | .map _, .str _ => isFalse nofun
  | .map _, .seq _ => isFalse nofun
  | .map a, .map b =>
    match Value.decEqKVs a b with
    | isTrue h => isTrue (congrArg Value.map h)
    | isFalse h => isFalse (fun hh => by cases hh; exact h rfl)

/-- Decidable equality of `Value` lists. -/
def Value.decEqList : (a b : List Value) → Decidable (a = b)
  | [], [] => isTrue rfl
  | [], _ :: _ => isFalse nofun
  | _ :: _, [] => isFalse nofun
  | x :: xs, y :: ys =>
    match Value.decEq x y, Value.decEqList xs ys with
    | isTrue h1, isTrue h2 => isTrue (by rw [h1, h2])
    | isFalse h1, _ => isFalse (fun hh => by cases hh; exact h1 rfl)
    | _, isFalse h2 => isFalse (fun hh => by cases hh; exact h2 rfl)

/-- Decidable equality of `Value` key-value lists. -/
def Value.decEqKVs : (a b : List (Value × Value)) → Decidable (a = b)
  | [], [] => isTrue rfl
  | [], _ :: _ => isFalse nofun
  | _ :: _, [] => isFalse nofun
  | (k1, v1) :: xs, (k2, v2) :: ys =>
    match Value.decEq k1 k2, Value.decEq v1 v2, Value.decEqKVs xs ys with
    | isTrue h1, isTrue h2, isTrue h3 => isTrue (by rw [h1, h2, h3])
    | isFalse h1, _, _ => isFalse (fun hh => by cases hh; exact h1 rfl)
    | _, isFalse h2, _ => isFalse (fun hh => by cases hh; exact h2 rfl)
    | _, _, isFalse h3 => isFalse (fun hh => by cases hh; exact h3 rfl)

end

instance : DecidableEq Value := Value.decEq

/-- `Mapping::get` (`IndexMap` lookup). -/
def Value.getKey : List (Value × Value) → Value → Option Value
  | [], _ => none
  | kv :: rest, k => if kv.1 = k then some kv.2 else Value.getKey rest k

/-- `Mapping::insert` (`IndexMap` insert): replace the value at an existing
key in place, else append at the end. -/
def Value.insertKV : List (Value × Value) → Value → Value → List (Value × Value)
  | [], k, v => [(k, v)]
  | kv :: rest, k, v => if kv.1 = k then (kv.1, v) :: rest else kv :: Value.insertKV rest k v

mutual

/-- `merge_value` (`yaml_patch.rs`): if both values are mappings, merge the
patch mapping into the value mapping recursively; otherwise the patch value
replaces the value. -/
def merge_value : Value → Value → Value
  | .map vm, .map pm => .map (merge_mapping vm vm pm)
  | _, p => p

/-- `merge_mapping` (`yaml_patch.rs`): fold the patch entries into the
result (initially a clone of the value mapping), merging each patch value
with the original value mapping's entry at that key (`Null` when absent). -/
def merge_mapping (vm : List (Value × Value)) :
    List (Value × Value) → List (Value × Value) → List (Value × Value)
  | result, [] => result
  | result, (k, pv) :: rest =>
    merge_mapping vm (Value.insertKV result k (merge_value ((Value.getKey vm k).getD .null) pv)) rest

end

/-- Key uniqueness of one mapping level (an `IndexMap` invariant). -/
def nodupKeys : List (Value × Value) → Bool
  | [] => true
  | (k, _) :: rest => !(rest.any (fun kv => kv.1 = k)) && nodupKeys rest

mutual

/-- A well-formed `serde_yaml::Value`: every mapping at every depth has
pairwise-distinct keys, as `IndexMap` guarantees for values produced by the
YAML parser and by `serde` serialisation. -/
def Value.wf : Value → Bool
  | .seq l => Value.wfList l
  | .map m => nodupKeys m && Value.wfKVs m
  | _ => true

/-- All members of a sequence are well-formed. -/
def Value.wfList : List Value → Bool
  | [] => true
  | x :: xs => Value.wf x && Value.wfList xs

/-- All keys and values of a mapping are well-formed. -/
def Value.wfKVs : List (Value × Value) → Bool
  | [] => true
  | (k, v) :: rest => Value.wf k && Value.wf v && Value.wfKVs rest

end

/-- `Patch::patch_from_value` (`yaml_patch.rs`), for a configuration type
`T` with `serde` conversions `to_value : T → Value` and
`from_value : Value → Option T` (the external `serde_yaml` machinery enters
as parameters): serialise, merge the patch, deserialise. -/
def patch_from_value {T : Type} (to_value : T → Value) (from_value : Value → Option T)
    (t : T) (patch_value : Value) : Option T :=
  from_value (merge_value (to_value t) patch_value)

/-! ## Helper lemmas -/

theorem foldl_min_init {α : Type} [LinearOrder α] (xs : List α) : ∀ a x : α, xs.foldl min (min a x) = min a (xs.foldl min x) := by
  induction xs with
  | nil => intro a x; rfl
  | cons y ys ih =>
    intro a x
    show ys.foldl min (min (min a x) y) = min a (ys.foldl min (min x y))
    rw [min_assoc, ih]

theorem foldl_max_init {α : Type} [LinearOrder α] (xs : List α) : ∀ a x : α, xs.foldl max (max a x) = max a (xs.foldl max x) := by
  induction xs with
  | nil => intro a x; rfl
  | cons y ys ih =>
    intro a x
    show ys.foldl max (max (max a x) y) = max a (ys.foldl max (max x y))
    rw [max_assoc, ih]

theorem foldl_min_mem {α : Type} [LinearOrder α] (xs : List α) : ∀ x : α, xs.foldl min x ∈ x :: xs := by
  induction xs with
  | nil => intro x; exact List.mem_singleton.mpr rfl
  | cons y ys ih =>
    intro x
    show ys.foldl min (min x y) ∈ x :: y :: ys
    rcases min_cases x y with ⟨h, _⟩ | ⟨h, _⟩
    · rw [h]
      rcases List.mem_cons.mp (ih x) with h2 | h2
      · rw [h2]; exact List.mem_cons_self _ _
      · exact List.mem_cons_of_mem _ (List.mem_cons_of_mem _ h2)
    · rw [h]
      rcases List.mem_cons.mp (ih y) with h2 | h2
      · rw [h2]; exact List.mem_cons_of_mem _ (List.mem_cons_self _ _)
      · exact List.mem_cons_of_mem _ (List.mem_cons_of_mem _ h2)

theorem foldl_min_le {α : Type} [LinearOrder α] (xs : List α) : ∀ x : α, ∀ y ∈ x :: xs, xs.foldl min x ≤ y := by
  induction xs with
  | nil =>
    intro x y hy
    rw [List.mem_singleton.mp hy]
    exact le_refl _
  | cons z zs ih =>
    intro x y hy
    show zs.foldl min (min x z) ≤ y
    have hacc : zs.foldl min (min x z) ≤ min x z :=
      ih (min x z) (min x z) (List.mem_cons_self _ _)
    rcases List.mem_cons.mp hy with h | h
    · rw [h]
      exact le_trans hacc (min_le_left _ _)
    · rcases List.mem_cons.mp h with h2 | h2
      · rw [h2]
        exact le_trans hacc (min_le_right _ _)
      · exact ih (min x z) y (List.mem_cons_of_mem _ h2)

theorem foldl_max_mem {α : Type} [LinearOrder α] (xs : List α) : ∀ x : α, xs.foldl max x ∈ x :: xs := by
  induction xs with
  | nil => intro x; exact List.mem_singleton.mpr rfl
  | cons y ys ih =>
    intro x
    show ys.foldl max (max x y) ∈ x :: y :: ys
    rcases max_cases x y with ⟨h, _⟩ | ⟨h, _⟩
    · rw [h]
      rcases List.mem_cons.mp (ih x) with h2 | h2
      · rw [h2]; exact List.mem_cons_self _ _
      · exact List.mem_cons_of_mem _ (List.mem_cons_of_mem _ h2)
    · rw [h]
      rcases List.mem_cons.mp (ih y) with h2 | h2
      · rw [h2]; exact List.mem_cons_of_mem _ (List.mem_cons_self _ _)
      · exact List.mem_cons_of_mem _ (List.mem_cons_of_mem _ h2)

theorem foldl_max_ge {α : Type} [LinearOrder α] (xs : List α) : ∀ x : α, ∀ y ∈ x :: xs, y ≤ xs.foldl max x := by
  induction xs with
  | nil =>
    intro x y hy
    rw [List.mem_singleton.mp hy]
    exact le_refl _
  | cons z zs ih =>
    intro x y hy
    show y ≤ zs.foldl max (max x z)
    have hacc : max x z ≤ zs.foldl max (max x z) :=
      ih (max x z) (max x z) (List.mem_cons_self _ _)
    rcases List.mem_cons.mp hy with h | h
    · rw [h]
      exact le_trans (le_max_left _ _) hacc
    · rcases List.mem_cons.mp h with h2 | h2
      · rw [h2]
        exact le_trans (le_max_right _ _) hacc
      · exact ih (max x z) y (List.mem_cons_of_mem _ h2)

/-- The accumulator of `min_max_block_indexes_offset_by` splits into two
scalar folds, with the polar components frozen at their initial values. -/
theorem minmax_fold_split {C : Type} (delta : ℤ) (l : List (BlockIndex × BlockState C)) :
    ∀ acc : BlockIndex × BlockIndex,
    l.foldl (fun mm kv =>
      ((min mm.1.1 (kv.1.1 - delta), mm.1.2), (max mm.2.1 (kv.1.1 + delta), mm.2.2))) acc =
      (((l.map (fun kv => kv.1.1 - delta)).foldl min acc.1.1, acc.1.2),
       ((l.map (fun kv => kv.1.1 + delta)).foldl max acc.2.1, acc.2.2)) := by
  induction l with
  | nil => intro acc; rfl
  | cons kv rest ih =>
    intro acc
    simp only [List.foldl_cons, List.map_cons]
    rw [ih]

/-- Characterisation of `min_max_block_indexes_offset_by` on a non-empty
state whose keys fit in `i32`: it returns the minimum and maximum radial
key components, offset by `delta`, with both polar components `0`. -/
theorem minmax_offset_spec {C : Type} (s : State C) (delta : ℤ) (hd : 0 ≤ delta)
    (hne : s.solution ≠ [])
    (hbound : ∀ kv ∈ s.solution, i32MIN + delta ≤ kv.1.1 ∧ kv.1.1 + delta ≤ i32MAX) :
    ∃ m M : ℤ,
      s.min_max_block_indexes_offset_by delta = ((m - delta, 0), (M + delta, 0)) ∧
      (∃ kv ∈ s.solution, kv.1.1 = m) ∧ (∀ kv ∈ s.solution, m ≤ kv.1.1) ∧
      (∃ kv ∈ s.solution, kv.1.1 = M) ∧ (∀ kv ∈ s.solution, kv.1.1 ≤ M) := by
  obtain ⟨kv0, rest, hsol⟩ : ∃ kv0 rest, s.solution = kv0 :: rest := by
    cases h : s.solution with
    | nil => exact absurd h hne
    | cons a l => exact ⟨a, l, rfl⟩
  have hsplit := minmax_fold_split (C := C) delta (kv0 :: rest)
    (((i32MAX, 0), (i32MIN, 0)) : BlockIndex × BlockIndex)
  set mv := (rest.map (fun kv => kv.1.1 - delta)).foldl min (kv0.1.1 - delta) with hmv
  set Mv := (rest.map (fun kv => kv.1.1 + delta)).foldl max (kv0.1.1 + delta) with hMv
  have key : s.min_max_block_indexes_offset_by delta =
      ((min i32MAX mv, 0), (max i32MIN Mv, 0)) := by
    have h0 : s.min_max_block_indexes_offset_by delta =
        ((((kv0 :: rest).map (fun kv => kv.1.1 - delta)).foldl min i32MAX, 0),
         (((kv0 :: rest).map (fun kv => kv.1.1 + delta)).foldl max i32MIN, 0)) := by
      unfold State.min_max_block_indexes_offset_by
      rw [hsol]
      exact hsplit
    rw [h0]
    simp only [List.map_cons, List.foldl_cons]
    rw [foldl_min_init, foldl_max_init]
  have hmv_mem : ∃ kv ∈ kv0 :: rest, kv.1.1 - delta = mv := by
    have := foldl_min_mem (rest.map (fun kv => kv.1.1 - delta)) (kv0.1.1 - delta)
    rw [← hmv] at this
    rcases List.mem_cons.mp this with h | h
    · exact ⟨kv0, List.mem_cons_self _ _, h.symm⟩
    · obtain ⟨kv, hkv, hval⟩ := List.mem_map.mp h
      exact ⟨kv, List.mem_cons_of_mem _ hkv, hval.trans rfl⟩
  have hmv_le : ∀ kv ∈ kv0 :: rest, mv ≤ kv.1.1 - delta := by
    intro kv hkv
    rcases List.mem_cons.mp hkv with h | h
    · subst h
      exact foldl_min_le _ _ _ (List.mem_cons_self _ _)
    · exact foldl_min_le _ _ _ (List.mem_cons_of_mem _ (List.mem_map.mpr ⟨kv, h, rfl⟩))
  have hMv_mem : ∃ kv ∈ kv0 :: rest, kv.1.1 + delta = Mv := by
    have := foldl_max_mem (rest.map (fun kv => kv.1.1 + delta)) (kv0.1.1 + delta)
    rw [← hMv] at this
    rcases List.mem_cons.mp this with h | h
    · exact ⟨kv0, List.mem_cons_self _ _, h.symm⟩
    · obtain ⟨kv, hkv, hval⟩ := List.mem_map.mp h
      exact ⟨kv, List.mem_cons_of_mem _ hkv, hval.trans rfl⟩
  have hMv_ge : ∀ kv ∈ kv0 :: rest, kv.1.1 + delta ≤ Mv := by
    intro kv hkv
    rcases List.mem_cons.mp hkv with h | h
    · subst h
      exact foldl_max_ge _ _ _ (List.mem_cons_self _ _)
    · exact foldl_max_ge _ _ _ (List.mem_cons_of_mem _ (List.mem_map.mpr ⟨kv, h, rfl⟩))
  obtain ⟨kvm, hkvm_mem, hkvm⟩ := hmv_mem
  obtain ⟨kvM, hkvM_mem, hkvM⟩ := hMv_mem
  have hbm := hbound kvm (hsol ▸ hkvm_mem)
  have hbM := hbound kvM (hsol ▸ hkvM_mem)
  refine ⟨mv + delta, Mv - delta, ?_, ?_, ?_, ?_, ?_⟩
  · have h1 : min i32MAX mv = mv := min_eq_right (by omega)
    have h2 : max i32MIN Mv = Mv := max_eq_right (by omega)
    rw [key, h1, h2]
    congr 2 <;> omega
  · exact ⟨kvm, hsol ▸ hkvm_mem, by omega⟩
  · intro kv hkv
    have := hmv_le kv (by rw [hsol] at hkv; exact hkv)
    omega
  · exact ⟨kvM, hsol ▸ hkvM_mem, by omega⟩
  · intro kv hkv
    have := hMv_ge kv (by rw [hsol] at hkv; exact hkv)
    omega

/-! ## Claim C10 -/

/-- **C10.**  For a state with a non-empty solution map,
`inner_outer_block_indexes()` returns `((m, 0), (M, 0))` where `m` and `M`
are the minimum and maximum radial components of the block keys, and
`inner_outer_boundary_indexes()` returns `((m - 1, 0), (M + 1, 0))`; the
polar component of both returned indices is always `0` regardless of the
keys' polar components, and on an empty solution map both functions return
`((i32::MAX, 0), (i32::MIN, 0))` rather than failing.  (The radial keys are
assumed to fit in `i32` with one index of headroom, as they do for `i32`
keys in the source.) -/
theorem c10_inner_outer_indexes {C : Type} (s : State C) :
    (s.solution = [] →
      s.inner_outer_block_indexes = ((i32MAX, 0), (i32MIN, 0)) ∧
      s.inner_outer_boundary_indexes = ((i32MAX, 0), (i32MIN, 0))) ∧
    (s.solution ≠ [] →
      (∀ kv ∈ s.solution, i32MIN + 1 ≤ kv.1.1 ∧ kv.1.1 + 1 ≤ i32MAX) →
      ∃ m M : ℤ,
        (∃ kv ∈ s.solution, kv.1.1 = m) ∧ (∀ kv ∈ s.solution, m ≤ kv.1.1) ∧
        (∃ kv ∈ s.solution, kv.1.1 = M) ∧ (∀ kv ∈ s.solution, kv.1.1 ≤ M) ∧
        s.inner_outer_block_indexes = ((m, 0), (M, 0)) ∧
        s.inner_outer_boundary_indexes = ((m - 1, 0), (M + 1, 0))) := by
  constructor
  · intro h
    constructor <;>
      · show s.min_max_block_indexes_offset_by _ = _
        unfold State.min_max_block_indexes_offset_by
        rw [h]
        rfl
  · intro hne hb
    obtain ⟨m0, M0, h0eq, h0memm, h0lb, h0memM, h0ub⟩ :=
      minmax_offset_spec s 0 le_rfl hne (by intro kv hkv; have := hb kv hkv; omega)
    obtain ⟨m1, M1, h1eq, h1memm, h1lb, h1memM, h1ub⟩ :=
      minmax_offset_spec s 1 zero_le_one hne hb
    obtain ⟨kva, hkva, hkva2⟩ := h0memm
    obtain ⟨kvb, hkvb, hkvb2⟩ := h1memm
    obtain ⟨kvc, hkvc, hkvc2⟩ := h0memM
    obtain ⟨kvd, hkvd, hkvd2⟩ := h1memM
    have hmm : m0 = m1 :=
      le_antisymm (hkvb2 ▸ h0lb kvb hkvb) (hkva2 ▸ h1lb kva hkva)
    have hMM : M0 = M1 :=
      le_antisymm (hkvc2 ▸ h1ub kvc hkvc) (hkvd2 ▸ h0ub kvd hkvd)
    refine ⟨m0, M0, ⟨kva, hkva, hkva2⟩, h0lb, ⟨kvc, hkvc, hkvc2⟩, h0ub, ?_, ?_⟩
    · show s.min_max_block_indexes_offset_by 0 = _
      rw [h0eq]
      norm_num
    · show s.min_max_block_indexes_offset_by 1 = _
      rw [h1eq, ← hmm, ← hMM]

/-- A zero block state over `ℚ`, used as sample data for witnesses. -/
def zeroBlockQ : BlockState ℚ :=
  { conserved := fun _ _ => 0, scalar_mass := fun _ _ => 0 }

/-- A sample three-block state whose keys have radial components `3, 5, 4`
and polar components `0, 2, 7`. -/
def sampleState3 : State ℚ :=
  { time := 0
    iteration := 0
    solution := [((3, 0), zeroBlockQ), ((5, 2), zeroBlockQ), ((4, 7), zeroBlockQ)] }

/-- Witness for C10: on the sample state the minimum and maximum radial
keys are `3` and `5`. -/
theorem c10_inner_outer_indexes_witness :
    sampleState3.solution ≠ [] ∧
    (∀ kv ∈ sampleState3.solution, i32MIN + 1 ≤ kv.1.1 ∧ kv.1.1 + 1 ≤ i32MAX) ∧
    (∃ m M : ℤ,
      (∃ kv ∈ sampleState3.solution, kv.1.1 = m) ∧
      (∀ kv ∈ sampleState3.solution, m ≤ kv.1.1) ∧
      (∃ kv ∈ sampleState3.solution, kv.1.1 = M) ∧
      (∀ kv ∈ sampleState3.solution, kv.1.1 ≤ M) ∧
      sampleState3.inner_outer_block_indexes = ((m, 0), (M, 0)) ∧
      sampleState3.inner_outer_boundary_indexes = ((m - 1, 0), (M + 1, 0))) := by
  have hne : sampleState3.solution ≠ [] := by
    simp [sampleState3]
  have hb : ∀ kv ∈ sampleState3.solution, i32MIN + 1 ≤ kv.1.1 ∧ kv.1.1 + 1 ≤ i32MAX := by
    intro kv hkv
    simp only [sampleState3, List.mem_cons, List.not_mem_nil, or_false] at hkv
    rcases hkv with h | h | h <;> subst h <;> constructor <;> decide
  exact ⟨hne, hb, (c10_inner_outer_indexes sampleState3).2 hne hb⟩

/-! ## Claim C3 -/

/-- A relativistic configuration with a legal `plm_theta` and an illegal
CFL number (`1 > 0.7`). -/
def relCflOutOfRange : RelativisticHydro :=
  { gamma_law_index := 4 / 3
    plm_theta := 3 / 2
    cfl_number := 1
    runge_kutta_order := .RK2
    riemann_solver := .HLLC
    adaptive_time_step := false }

/-- **C3 counterexample.**  The claim says `validate()` returns an error for
every configuration with `cfl_number` outside `[0, 0.7]`; but the
relativistic back-end's CFL check is commented out in the source, so a
relativistic configuration with `cfl_number = 1` validates successfully. -/
theorem c3_validate_counterexample :
    relCflOutOfRange.validate = .ok () ∧
    ¬(0 ≤ relCflOutOfRange.cfl_number ∧ relCflOutOfRange.cfl_number ≤ 7 / 10) := by
  constructor
  · rw [relCflOutOfRange, RelativisticHydro.validate]
    norm_num
  · rw [relCflOutOfRange]
    norm_num

/-- **C3 (amended).**  `NewtonianHydro::validate` succeeds iff `plm_theta ∈
[1, 2]` and `cfl_number ∈ [0, 0.7]`; `RelativisticHydro::validate` succeeds
iff `plm_theta ∈ [1, 2]` alone — its `cfl_number` range check is commented
out in the source, so no relativistic configuration is rejected for its CFL
number. -/
theorem c3_validate_spec (r : RelativisticHydro) (n : NewtonianHydro) :
    (r.validate = .ok () ↔ (1 ≤ r.plm_theta ∧ r.plm_theta ≤ 2)) ∧
    (n.validate = .ok () ↔
      (1 ≤ n.plm_theta ∧ n.plm_theta ≤ 2 ∧ 0 ≤ n.cfl_number ∧ n.cfl_number ≤ 7 / 10)) := by
  constructor
  · unfold RelativisticHydro.validate
    split_ifs with h
    · refine iff_of_false nofun ?_
      rintro ⟨h1, h2⟩
      rcases h with h | h <;> linarith
    · push_neg at h
      exact iff_of_true rfl ⟨h.1, h.2⟩
  · unfold NewtonianHydro.validate
    split_ifs with h1 h2
    · refine iff_of_false nofun ?_
      rintro ⟨a1, a2, _⟩
      rcases h1 with h | h <;> linarith
    · refine iff_of_false nofun ?_
      rintro ⟨_, _, a3, a4⟩
      rcases h2 with h | h <;> linarith
    · push_neg at h1 h2
      exact iff_of_true rfl ⟨h1.1, h1.2, h2.1, h2.2⟩

/-! ## Claim C5 -/

/-- A mesh with `inner_radius = 0` and every other field legal. -/
def meshInnerZero : Mesh :=
  { reference_radius := 1
    inner_radius := 0
    outer_radius := 10
    inner_excision_speed := 0
    outer_excision_speed := 0
    num_radial_zones := some 4
    num_polar_zones := 16
    block_size := 2
    excision_delay := none }

/-- **C5 counterexample.**  The claim says a mesh with `inner_radius = 0`
is rejected; but the source checks `inner_radius < 0.0`, so the zero inner
radius validates successfully. -/
theorem c5_validate_counterexample :
    meshInnerZero.validate 0 = .ok () ∧ ¬(0 < meshInnerZero.inner_radius) := by
  constructor
  · rw [meshInnerZero, Mesh.validate]
    norm_num [Mesh.outer_excision_surface]
  · rw [meshInnerZero]
    norm_num

/-- **C5 (amended).**  `Mesh::validate(t)` succeeds iff: the reference
radius is positive and the inner and outer radii are non-negative (a zero
inner or outer radius is accepted — the source checks `< 0`); the reference
radius is at most `OES(t)`; the excision delay is non-negative; both
excision speeds are non-negative with `outer_excision_speed ≥
inner_excision_speed`; `block_size ≥ 2`; `num_polar_zones` equals 1 or is
at least 16; and `num_radial_zones` is provided whenever
`num_polar_zones = 1`. -/
theorem c5_validate_spec (m : Mesh) (t : ℚ) :
    m.validate t = .ok () ↔
      (0 < m.reference_radius ∧ 0 ≤ m.inner_radius ∧ 0 ≤ m.outer_radius ∧
       m.reference_radius ≤ m.outer_excision_surface t ∧
       0 ≤ m.excision_delay.getD 0 ∧
       0 ≤ m.inner_excision_speed ∧ 0 ≤ m.outer_excision_speed ∧
       m.inner_excision_speed ≤ m.outer_excision_speed ∧
       2 ≤ m.block_size ∧
       (m.num_polar_zones = 1 ∨ 16 ≤ m.num_polar_zones) ∧
       (m.num_polar_zones = 1 → m.num_radial_zones ≠ none)) := by
  unfold Mesh.validate
  split_ifs with h1 h2 h3 h4 h5 h6 h7 h8
  · refine iff_of_false nofun ?_
    rintro ⟨c1, c2, c3, _⟩
    rcases h1 with h | h | h <;> linarith
  · refine iff_of_false nofun ?_
    rintro ⟨_, _, _, c4, _⟩
    exact absurd c4 (not_le.mpr h2)
  · refine iff_of_false nofun ?_
    rintro ⟨_, _, _, _, c5, _⟩
    linarith
  · refine iff_of_false nofun ?_
    rintro ⟨_, _, _, _, _, c6, c7, _⟩
    rcases h4 with h | h <;> linarith
  · refine iff_of_false nofun ?_
    rintro ⟨_, _, _, _, _, _, _, c8, _⟩
    linarith
  · refine iff_of_false nofun ?_
    rintro ⟨_, _, _, _, _, _, _, _, c9, _⟩
    omega
  · refine iff_of_false nofun ?_
    rintro ⟨_, _, _, _, _, _, _, _, _, c10x, _⟩
    rcases c10x with h | h
    · exact h7.1 h
    · omega
  · refine iff_of_false nofun ?_
    rintro ⟨_, _, _, _, _, _, _, _, _, _, c11⟩
    exact (c11 h8.1) h8.2
  · push_neg at h1 h2 h3 h4 h5
    refine iff_of_true rfl ⟨h1.1, h1.2.1, h1.2.2, h2, h3, h4.1, h4.2, h5, by omega, ?_, ?_⟩
    · by_cases hq : m.num_polar_zones = 1
      · exact Or.inl hq
      · right
        by_contra hlt
        exact h7 ⟨hq, by omega⟩
    · intro hq hn
      exact h8 ⟨hq, hn⟩

/-! ## Claim C4 -/

/-- **C4.**  Relativistic `try_to_primitive(u)`: a negative lab-frame
density yields `NegativeDensity`; otherwise a negative energy density
yields `NegativeEnergyDensity`; otherwise a failed pressure root-find
yields `RootFinderFailed` carrying the root-finder's conserved state; and a
`NegativePressure` outcome is never surfaced as an error but healed — the
returned primitive keeps the recovered density and velocity components with
the pressure floored to `1e-3` times the density. -/
theorem c4_relativistic_try_to_primitive (h : RelativisticHydro) (ext : SrhdExt)
    (u : SrhdConserved) :
    (ext.lab_frame_density u < 0 →
      h.try_to_primitive ext u = .error (.negativeDensity (ext.lab_frame_density u))) ∧
    (0 ≤ ext.lab_frame_density u → ext.energy_density u < 0 →
      h.try_to_primitive ext u = .error (.negativeEnergyDensity (ext.energy_density u))) ∧
    (0 ≤ ext.lab_frame_density u → 0 ≤ ext.energy_density u →
      ∀ w, ext.to_primitive h.gamma_law_index u = .rootFinderFailed w →
        h.try_to_primitive ext u = .error (.rootFinderFailed w)) ∧
    (0 ≤ ext.lab_frame_density u → 0 ≤ ext.energy_density u →
      ∀ p, ext.to_primitive h.gamma_law_index u = .negativePressure p →
        h.try_to_primitive ext u = .ok ⟨p.rho, p.u1, p.u2, 1 / 1000 * p.rho⟩) := by
  refine ⟨?_, ?_, ?_, ?_⟩
  · intro hd
    unfold RelativisticHydro.try_to_primitive
    rw [if_pos hd]
  · intro hd he
    unfold RelativisticHydro.try_to_primitive
    rw [if_neg (not_lt.mpr hd), if_pos he]
  · intro hd he w hw
    unfold RelativisticHydro.try_to_primitive
    rw [if_neg (not_lt.mpr hd), if_neg (not_lt.mpr he), hw]
  · intro hd he p hp
    unfold RelativisticHydro.try_to_primitive
    rw [if_neg (not_lt.mpr hd), if_neg (not_lt.mpr he), hp]

/-- A sample instantiation of the external `hydro_srhd` functions: density
and energy observables are the first and last tuple components; the
root-find fails on density-2 states and otherwise reports a negative
pressure. -/
def extSample : SrhdExt :=
  { lab_frame_density := fun u => u.d
    energy_density := fun u => u.tau
    to_primitive := fun _ u =>
      if u.d = 2 then .rootFinderFailed u else .negativePressure ⟨u.d, 0, 0, -1⟩
    to_conserved := fun _ _ => ⟨0, 0, 0, 0⟩
    max_signal_speed := fun _ _ => 1
    lorentz_factor_squared := fun _ => 1
    specific_enthalpy := fun _ _ => 1
    spherical_geometry_source_terms := fun _ _ _ _ => ⟨0, 0, 0, 0⟩
    riemann_hllc_scalar := fun _ _ _ _ _ _ _ => (⟨0, 0, 0, 0⟩, 0)
    plm_gradient4 := fun _ _ _ _ => ⟨0, 0, 0, 0⟩
    plm_gradient := fun _ _ _ _ => 0 }

/-- A sample relativistic configuration (non-adaptive time step). -/
def rhSample : RelativisticHydro :=
  { gamma_law_index := 4 / 3
    plm_theta := 3 / 2
    cfl_number := 2 / 5
    runge_kutta_order := .RK2
    riemann_solver := .HLLC
    adaptive_time_step := false }

/-- Witness for C4: each of the four recovery outcomes at a concrete
conserved state. -/
theorem c4_relativistic_try_to_primitive_witness :
    rhSample.try_to_primitive extSample ⟨-1, 0, 0, 5⟩ =
      .error (.negativeDensity (-1)) ∧
    rhSample.try_to_primitive extSample ⟨1, 0, 0, -2⟩ =
      .error (.negativeEnergyDensity (-2)) ∧
    rhSample.try_to_primitive extSample ⟨2, 0, 0, 3⟩ =
      .error (.rootFinderFailed ⟨2, 0, 0, 3⟩) ∧
    rhSample.try_to_primitive extSample ⟨1, 0, 0, 3⟩ =
      .ok ⟨1, 0, 0, 1 / 1000 * 1⟩ :=
  ⟨(c4_relativistic_try_to_primitive rhSample extSample ⟨-1, 0, 0, 5⟩).1
     (by norm_num [extSample]),
   (c4_relativistic_try_to_primitive rhSample extSample ⟨1, 0, 0, -2⟩).2.1
     (by norm_num [extSample]) (by norm_num [extSample]),
   (c4_relativistic_try_to_primitive rhSample extSample ⟨2, 0, 0, 3⟩).2.2.1
     (by norm_num [extSample]) (by norm_num [extSample]) ⟨2, 0, 0, 3⟩
     (by norm_num [extSample]),
   (c4_relativistic_try_to_primitive rhSample extSample ⟨1, 0, 0, 3⟩).2.2.2
     (by norm_num [extSample]) (by norm_num [extSample]) ⟨1, 0, 0, -1⟩
     (by norm_num [extSample])⟩

/-! ## Claim C7: lemmas about mapping lookup and insertion -/

theorem getKey_nil (k : Value) : Value.getKey [] k = none := rfl

theorem getKey_cons (kv : Value × Value) (rest : List (Value × Value)) (k : Value) :
    Value.getKey (kv :: rest) k = if kv.1 = k then some kv.2 else Value.getKey rest k := rfl

theorem insertKV_nil (k v : Value) : Value.insertKV [] k v = [(k, v)] := rfl

theorem insertKV_cons (kv : Value × Value) (rest : List (Value × Value)) (k v : Value) :
    Value.insertKV (kv :: rest) k v =
      if kv.1 = k then (kv.1, v) :: rest else kv :: Value.insertKV rest k v := rfl

theorem getKey_insertKV_self (l : List (Value × Value)) (k v : Value) :
    Value.getKey (Value.insertKV l k v) k = some v := by
  induction l with
  | nil =>
    rw [insertKV_nil, getKey_cons, if_pos rfl]
  | cons kv rest ih =>
    rw [insertKV_cons]
    by_cases h : kv.1 = k
    · rw [if_pos h, getKey_cons, if_pos h]
    · rw [if_neg h, getKey_cons, if_neg h, ih]

theorem getKey_insertKV_ne (l : List (Value × Value)) (k v k' : Value) (h : k' ≠ k) :
    Value.getKey (Value.insertKV l k v) k' = Value.getKey l k' := by
  induction l with
  | nil =>
    rw [insertKV_nil, getKey_cons, getKey_nil, if_neg (fun hh : k = k' => h hh.symm)]
  | cons kv rest ih =>
    rw [insertKV_cons]
    by_cases hk : kv.1 = k
    · have hk' : ¬kv.1 = k' := fun hh => h (hh ▸ hk)
      rw [if_pos hk, getKey_cons, getKey_cons, if_neg hk', if_neg hk']
    · rw [if_neg hk, getKey_cons, getKey_cons]
      by_cases hk2 : kv.1 = k'
      · rw [if_pos hk2, if_pos hk2]
      · rw [if_neg hk2, if_neg hk2, ih]

theorem insertKV_of_getKey (l : List (Value × Value)) (k v : Value)
    (h : Value.getKey l k = some v) : Value.insertKV l k v = l := by
  induction l with
  | nil => rw [getKey_nil] at h; cases h
  | cons kv rest ih =>
    rw [getKey_cons] at h
    rw [insertKV_cons]
    by_cases hk : kv.1 = k
    · rw [if_pos hk] at h
      have hv : v = kv.2 := (Option.some_inj.mp h).symm
      rw [if_pos hk, hv, Prod.mk.eta]
    · rw [if_neg hk] at h
      rw [if_neg hk, ih h]

theorem getKey_of_mem_nodup (l : List (Value × Value)) (k v : Value)
    (hnd : nodupKeys l = true) (hmem : (k, v) ∈ l) : Value.getKey l k = some v := by
  induction l with
  | nil => cases hmem
  | cons kv rest ih =>
    rw [show (kv :: rest) = ((kv.1, kv.2) :: rest) from by rw [Prod.mk.eta], nodupKeys,
      Bool.and_eq_true, Bool.not_eq_true'] at hnd
    rcases List.mem_cons.mp hmem with h | h
    · have h1 : kv.1 = k := by rw [← h]
      have h2 : kv.2 = v := by rw [← h]
      rw [getKey_cons, if_pos h1, h2]
    · by_cases hk : kv.1 = k
      · exfalso
        have hany : rest.any (fun e => e.1 = kv.1) = true :=
          List.any_eq_true.mpr ⟨(k, v), h, by simp [hk]⟩
        rw [hany] at hnd
        cases hnd.1
      · rw [getKey_cons, if_neg hk]
        exact ih hnd.2 h

theorem wfKVs_getKey (l : List (Value × Value)) (k v : Value)
    (hwf : Value.wfKVs l = true) (h : Value.getKey l k = some v) : Value.wf v = true := by
  induction l with
  | nil => rw [getKey_nil] at h; cases h
  | cons kv rest ih =>
    rw [show (kv :: rest) = ((kv.1, kv.2) :: rest) from by rw [Prod.mk.eta], Value.wfKVs,
      Bool.and_eq_true, Bool.and_eq_true] at hwf
    rw [getKey_cons] at h
    by_cases hk : kv.1 = k
    · rw [if_pos hk] at h
      exact Option.some_inj.mp h ▸ hwf.1.2
    · rw [if_neg hk] at h
      exact ih hwf.2 h

theorem nodupKeys_cons (k v : Value) (rest : List (Value × Value))
    (h : nodupKeys ((k, v) :: rest) = true) :
    nodupKeys rest = true ∧ ∀ e ∈ rest, e.1 ≠ k := by
  rw [nodupKeys, Bool.and_eq_true, Bool.not_eq_true'] at h
  refine ⟨h.2, fun e he hek => ?_⟩
  have hany : rest.any (fun e => e.1 = k) = true :=
    List.any_eq_true.mpr ⟨e, he, by simp [hek]⟩
  rw [hany] at h
  cases h.1

theorem wfKVs_cons (k v : Value) (rest : List (Value × Value))
    (h : Value.wfKVs ((k, v) :: rest) = true) :
    Value.wf k = true ∧ Value.wf v = true ∧ Value.wfKVs rest = true := by
  rw [Value.wfKVs, Bool.and_eq_true, Bool.and_eq_true] at h
  exact ⟨h.1.1, h.1.2, h.2⟩

theorem wf_map_elim (m : List (Value × Value)) (h : Value.wf (.map m) = true) :
    nodupKeys m = true ∧ Value.wfKVs m = true := by
  rw [Value.wf, Bool.and_eq_true] at h
  exact h

/-- Folding patch entries whose keys all differ from `k` does not change
the lookup at `k`. -/
theorem merge_mapping_getKey_notmem (vm : List (Value × Value)) :
    ∀ (pats res : List (Value × Value)) (k : Value), (∀ e ∈ pats, e.1 ≠ k) →
      Value.getKey (merge_mapping vm res pats) k = Value.getKey res k := by
  intro pats
  induction pats with
  | nil => intro res k _; rw [merge_mapping]
  | cons e rest ih =>
    intro res k hne
    rw [show e = (e.1, e.2) from rfl, merge_mapping]
    rw [ih _ k (fun x hx => hne x (List.mem_cons_of_mem _ hx))]
    exact getKey_insertKV_ne _ _ _ _ (fun hh => hne e (List.mem_cons_self _ _) hh.symm)

/-- After merging a patch with pairwise-distinct keys, the lookup at a
patch key is the merge of the original value-mapping entry with the patch
entry. -/
theorem merge_mapping_getKey_mem (vm : List (Value × Value)) :
    ∀ (pats res : List (Value × Value)) (k pv : Value), nodupKeys pats = true →
      (k, pv) ∈ pats →
      Value.getKey (merge_mapping vm res pats) k =
        some (merge_value ((Value.getKey vm k).getD .null) pv) := by
  intro pats
  induction pats with
  | nil => intro res k pv _ hmem; cases hmem
  | cons e rest ih =>
    intro res k pv hnd hmem
    obtain ⟨hnd_rest, hne⟩ := nodupKeys_cons e.1 e.2 rest (by rw [Prod.mk.eta]; exact hnd)
    rw [show e = (e.1, e.2) from rfl, merge_mapping]
    rcases List.mem_cons.mp hmem with h | h
    · have hk : e.1 = k := by rw [show e.1 = (k, pv).1 from by rw [← h]]
      have hv : e.2 = pv := by rw [show e.2 = (k, pv).2 from by rw [← h]]
      rw [hk, hv]
      rw [merge_mapping_getKey_notmem vm rest _ k (fun x hx hxk => hne x hx (hxk.trans hk.symm))]
      exact getKey_insertKV_self _ _ _
    · exact ih _ k pv hnd_rest h

/-- If every patch entry is already recorded in the result, the merge fold
leaves the result unchanged. -/
theorem merge_mapping_fixed (vm : List (Value × Value)) :
    ∀ (pats res : List (Value × Value)),
      (∀ e ∈ pats, Value.getKey res e.1 =
        some (merge_value ((Value.getKey vm e.1).getD .null) e.2)) →
      merge_mapping vm res pats = res := by
  intro pats
  induction pats with
  | nil => intro res _; rw [merge_mapping]
  | cons e rest ih =>
    intro res h
    rw [show e = (e.1, e.2) from rfl, merge_mapping]
    rw [insertKV_of_getKey _ _ _ (h e (List.mem_cons_self _ _))]
    exact ih res (fun x hx => h x (List.mem_cons_of_mem _ hx))

theorem merge_value_map_map (vm pm : List (Value × Value)) :
    merge_value (.map vm) (.map pm) = .map (merge_mapping vm vm pm) := by
  rw [merge_value]

theorem merge_value_not_map_left (v p : Value) (h : ∀ vm, v ≠ .map vm) :
    merge_value v p = p := by
  cases v with
  | map vm => exact absurd rfl (h vm)
  | null => cases p <;> (rw [merge_value]; exact fun vm pm h1 _ => by cases h1)
  | bool b => cases p <;> (rw [merge_value]; exact fun vm pm h1 _ => by cases h1)
  | num n => cases p <;> (rw [merge_value]; exact fun vm pm h1 _ => by cases h1)
  | str s => cases p <;> (rw [merge_value]; exact fun vm pm h1 _ => by cases h1)
  | seq l => cases p <;> (rw [merge_value]; exact fun vm pm h1 _ => by cases h1)

theorem merge_value_not_map_right (v p : Value) (h : ∀ pm, p ≠ .map pm) :
    merge_value v p = p := by
  cases p with
  | map pm => exact absurd rfl (h pm)
  | null => cases v <;> (rw [merge_value]; exact fun vm pm _ h2 => by cases h2)
  | bool b => cases v <;> (rw [merge_value]; exact fun vm pm _ h2 => by cases h2)
  | num n => cases v <;> (rw [merge_value]; exact fun vm pm _ h2 => by cases h2)
  | str s => cases v <;> (rw [merge_value]; exact fun vm pm _ h2 => by cases h2)
  | seq l => cases v <;> (rw [merge_value]; exact fun vm pm _ h2 => by cases h2)

theorem sizeOf_val_lt_map (pm : List (Value × Value)) (k pv : Value)
    (h : (k, pv) ∈ pm) : sizeOf pv < sizeOf (Value.map pm) := by
  have h1 : sizeOf (k, pv) < sizeOf pm := List.sizeOf_lt_of_mem h
  have h2 : sizeOf pv < sizeOf (k, pv) := by
    simp only [Prod.mk.sizeOf_spec]
    omega
  have h3 : sizeOf (Value.map pm) = 1 + sizeOf pm := by
    simp
  omega

/-- Merging a well-formed value with itself is the identity. -/
theorem merge_value_self_aux (n : ℕ) :
    ∀ p : Value, sizeOf p ≤ n → Value.wf p = true → merge_value p p = p := by
  induction n with
  | zero =>
    intro p hsz _
    exact absurd hsz (by cases p <;> simp)
  | succ n ih =>
    intro p hsz hwf
    cases p with
    | map pm =>
      rw [merge_value_map_map]
      obtain ⟨hnd, hkvs⟩ := wf_map_elim pm hwf
      congr 1
      apply merge_mapping_fixed
      intro e he
      have hget : Value.getKey pm e.1 = some e.2 :=
        getKey_of_mem_nodup pm e.1 e.2 hnd (by rw [Prod.mk.eta]; exact he)
      rw [hget, Option.getD_some]
      have hlt : sizeOf e.2 < sizeOf (Value.map pm) :=
        sizeOf_val_lt_map pm e.1 e.2 (by rw [Prod.mk.eta]; exact he)
      have hwe : Value.wf e.2 = true := wfKVs_getKey pm e.1 e.2 hkvs hget
      rw [ih e.2 (by simp only [Value.map.sizeOf_spec] at hsz hlt ⊢; omega) hwe]
    | null => rw [merge_value]; exact fun vm pm h1 _ => by cases h1
    | bool b => rw [merge_value]; exact fun vm pm h1 _ => by cases h1
    | num q => rw [merge_value]; exact fun vm pm h1 _ => by cases h1
    | str s => rw [merge_value]; exact fun vm pm h1 _ => by cases h1
    | seq l => rw [merge_value]; exact fun vm pm h1 _ => by cases h1

/-- Merging the same well-formed patch twice is the same as merging it
once. -/
theorem merge_value_idem_aux (n : ℕ) :
    ∀ p v : Value, sizeOf p ≤ n → Value.wf v = true → Value.wf p = true →
      merge_value (merge_value v p) p = merge_value v p := by
  induction n with
  | zero =>
    intro p v hsz _ _
    exact absurd hsz (by cases p <;> simp)
  | succ n ih =>
    intro p v hsz hwv hwp
    by_cases hp : ∀ pm, p ≠ Value.map pm
    · rw [merge_value_not_map_right v p hp, merge_value_not_map_right p p hp]
    · push_neg at hp
      obtain ⟨pm, rfl⟩ := hp
      obtain ⟨hnd, hkvs⟩ := wf_map_elim pm hwp
      by_cases hv : ∀ vm, v ≠ Value.map vm
      · rw [merge_value_not_map_left v _ hv]
        exact merge_value_self_aux (sizeOf (Value.map pm)) (Value.map pm) le_rfl hwp
      · push_neg at hv
        obtain ⟨vm, rfl⟩ := hv
        obtain ⟨hndv, hkvsv⟩ := wf_map_elim vm hwv
        rw [merge_value_map_map, merge_value_map_map]
        congr 1
        apply merge_mapping_fixed
        intro e he
        rw [merge_mapping_getKey_mem vm pm vm e.1 e.2 hnd (by rw [Prod.mk.eta]; exact he)]
        rw [Option.getD_some]
        have hwe2 : Value.wf e.2 = true :=
          wfKVs_getKey pm e.1 e.2 hkvs
            (getKey_of_mem_nodup pm e.1 e.2 hnd (by rw [Prod.mk.eta]; exact he))
        have hwx : Value.wf ((Value.getKey vm e.1).getD .null) = true := by
          cases hx : Value.getKey vm e.1 with
          | none =>
            rw [Option.getD_none, Value.wf]
            exacts [fun l h => Value.noConfusion h, fun m h => Value.noConfusion h]
          | some w => rw [Option.getD_some]; exact wfKVs_getKey vm e.1 w hkvsv hx
        have hlt : sizeOf e.2 < sizeOf (Value.map pm) :=
          sizeOf_val_lt_map pm e.1 e.2 (by rw [Prod.mk.eta]; exact he)
        rw [ih e.2 ((Value.getKey vm e.1).getD .null)
          (by simp only [Value.map.sizeOf_spec] at hsz hlt ⊢; omega) hwx hwe2]

/-- **C7.**  Configuration patching is idempotent: for every YAML value `v`
and patch value `p` (well-formed: every mapping has pairwise-distinct keys,
as `serde_yaml`'s `IndexMap` mappings do),
`merge_value(merge_value(v, p), p) = merge_value(v, p)`; consequently, for
any configuration type with serialisation functions that round-trip
(`from_value m = some u → to_value u = m`), applying the same YAML overlay
twice via `patch_from_value` yields the same configuration as applying it
once. -/
theorem c7_patch_idempotent :
    (∀ v p : Value, Value.wf v = true → Value.wf p = true →
      merge_value (merge_value v p) p = merge_value v p) ∧
    (∀ (T : Type) (to_value : T → Value) (from_value : Value → Option T)
      (t t1 : T) (p : Value),
      (∀ m u, from_value m = some u → to_value u = m) →
      Value.wf (to_value t) = true → Value.wf p = true →
      patch_from_value to_value from_value t p = some t1 →
      patch_from_value to_value from_value t1 p = some t1) := by
  have hidem : ∀ v p : Value, Value.wf v = true → Value.wf p = true →
      merge_value (merge_value v p) p = merge_value v p :=
    fun v p hv hp => merge_value_idem_aux (sizeOf p) p v le_rfl hv hp
  refine ⟨hidem, ?_⟩
  intro T to_value from_value t t1 p hrt hwt hwp h1
  unfold patch_from_value at h1 ⊢
  rw [hrt _ _ h1, hidem (to_value t) p hwt hwp]
  exact h1

/-- A sample configuration value (mirroring the `Config` struct of the
`yaml_patch.rs` unit tests). -/
def sampleConfigValue : Value :=
  .map [(.str "x", .num 32), (.str "y", .num 512),
        (.str "inner", .map [(.str "a", .str "a"), (.str "b", .str "b")])]

/-- A sample overlay patching `inner.a` and `y`. -/
def samplePatchValue : Value :=
  .map [(.str "inner", .map [(.str "a", .str "A")]), (.str "y", .num 1024)]

/-- Witness for C7: the sample configuration and overlay are well-formed,
merging the overlay twice equals merging it once, and a second
`patch_from_value` of the same overlay is the identity on the
once-patched configuration. -/
theorem c7_patch_idempotent_witness :
    Value.wf sampleConfigValue = true ∧ Value.wf samplePatchValue = true ∧
    merge_value (merge_value sampleConfigValue samplePatchValue) samplePatchValue =
      merge_value sampleConfigValue samplePatchValue ∧
    patch_from_value (fun x => x) some
      (merge_value sampleConfigValue samplePatchValue) samplePatchValue =
      some (merge_value sampleConfigValue samplePatchValue) := by
  have hwv : Value.wf sampleConfigValue = true := by
    rw [sampleConfigValue]
    rw [Value.wf]
    rfl
  have hwp : Value.wf samplePatchValue = true := by
    rw [samplePatchValue]
    rw [Value.wf]
    rfl
  refine ⟨hwv, hwp, c7_patch_idempotent.1 _ _ hwv hwp, ?_⟩
  exact c7_patch_idempotent.2 Value (fun x => x) some sampleConfigValue
    (merge_value sampleConfigValue samplePatchValue) samplePatchValue
    (fun m u h => (Option.some_inj.mp h).symm) hwv hwp rfl

/-! ## Claim C8 -/

/-- `advance_rk` succeeds only with the iteration advanced by exactly 1. -/
theorem advance_rk_iteration {C P : Type} [AddCommGroup C] [Module ℚ C]
    [AddCommGroup P] [Module ℚ P]
    (ops : FloatOps) (hydro : Hydro C P) (model : InitialModel) (mesh : Mesh)
    (geometry : List (BlockIndex × GridGeometry)) (state : State C) (dt : ℚ)
    (st' : State C) (h : advance_rk ops hydro model mesh geometry state dt = some st') :
    st'.iteration = state.iteration + 1 ∧ st'.time = state.time + dt := by
  unfold advance_rk at h
  simp only [Option.bind_eq_bind, Option.bind_eq_some, Option.pure_def,
    Option.some_inj] at h
  obtain ⟨sol, _, hst⟩ := h
  rw [← hst]
  exact ⟨rfl, rfl⟩

/-- `State::weighted_average` succeeds only with
`iteration = it1 * (1 - b) + it0 * b`. -/
theorem weighted_average_iteration {C : Type} [Add C] [SMul ℚ C]
    (s1 : State C) (br : ℚ) (s0 : State C) (st' : State C)
    (h : s1.weighted_average br s0 = some st') :
    st'.iteration = s1.iteration * (-br + 1) + s0.iteration * br ∧
    st'.time = s1.time * (-br + 1) + s0.time * br := by
  unfold State.weighted_average at h
  simp only [Option.bind_eq_bind, Option.bind_eq_some, Option.pure_def,
    Option.some_inj] at h
  obtain ⟨sol, _, hst⟩ := h
  rw [← hst]
  exact ⟨rfl, rfl⟩

/-- **C8.**  The iteration counter advances by exact rationals:
`advance_rk` increases `state.iteration` by exactly 1;
`State::weighted_average` with rational weight `b` returns iteration
`(1 - b) * it1 + b * it0` in exact rational arithmetic; one RK stage (an
advance followed by a weighted average against the pre-stage state)
advances the iteration by exactly `1 - b`; and a completed RK step (RK1,
RK2 or RK3, with the spec's stage composition) adds exactly 1 to the
iteration. -/
theorem c8_iteration_rational {C P : Type} [AddCommGroup C] [Module ℚ C]
    [AddCommGroup P] [Module ℚ P]
    (ops : FloatOps) (hydro : Hydro C P) (model : InitialModel) (mesh : Mesh)
    (geometry : List (BlockIndex × GridGeometry)) (dt : ℚ) :
    (∀ (state st' : State C),
      advance_rk ops hydro model mesh geometry state dt = some st' →
      st'.iteration = state.iteration + 1) ∧
    (∀ (s1 s0 st' : State C) (b : ℚ), s1.weighted_average b s0 = some st' →
      st'.iteration = (1 - b) * s1.iteration + b * s0.iteration) ∧
    (∀ (state s1 st' : State C) (b : ℚ),
      advance_rk ops hydro model mesh geometry state dt = some s1 →
      s1.weighted_average b state = some st' →
      st'.iteration = state.iteration + (1 - b)) ∧
    (∀ (order : RungeKuttaOrder) (state st' : State C),
      rkStep order (fun x => advance_rk ops hydro model mesh geometry x dt) state = some st' →
      st'.iteration = state.iteration + 1) := by
  refine ⟨?_, ?_, ?_, ?_⟩
  · intro state st' h
    exact (advance_rk_iteration ops hydro model mesh geometry state dt st' h).1
  · intro s1 s0 st' b h
    rw [(weighted_average_iteration s1 b s0 st' h).1]
    ring
  · intro state s1 st' b h1 h2
    rw [(weighted_average_iteration s1 b state st' h2).1,
      (advance_rk_iteration ops hydro model mesh geometry state dt s1 h1).1]
    ring
  · intro order state st' h
    cases order with
    | RK1 =>
      rw [rkStep] at h
      exact (advance_rk_iteration ops hydro model mesh geometry state dt st' h).1
    | RK2 =>
      rw [rkStep] at h
      simp only [Option.bind_eq_bind, Option.bind_eq_some] at h
      obtain ⟨s1, h1, s2, h2, havg⟩ := h
      have e1 := (advance_rk_iteration ops hydro model mesh geometry state dt s1 h1).1
      have e2 := (advance_rk_iteration ops hydro model mesh geometry s1 dt s2 h2).1
      have e3 := (weighted_average_iteration s2 (1 / 2) state st' havg).1
      rw [e3, e2, e1]
      ring
    | RK3 =>
      rw [rkStep] at h
      simp only [Option.bind_eq_bind, Option.bind_eq_some] at h
      obtain ⟨s1, h1, s2a, h2, s2, havg2, s3a, h3, havg3⟩ := h
      have e1 := (advance_rk_iteration ops hydro model mesh geometry state dt s1 h1).1
      have e2 := (advance_rk_iteration ops hydro model mesh geometry s1 dt s2a h2).1
      have e3 := (weighted_average_iteration s2a (3 / 4) state s2 havg2).1
      have e4 := (advance_rk_iteration ops hydro model mesh geometry s2 dt s3a h3).1
      have e5 := (weighted_average_iteration s3a (1 / 3) state st' havg3).1
      rw [e5, e4, e3, e2, e1]
      ring

/-- `advance_rk` on a state with no blocks: the block loop is empty, so
only time and iteration advance. -/
theorem advance_rk_nil {C P : Type} [AddCommGroup C] [Module ℚ C]
    [AddCommGroup P] [Module ℚ P]
    (ops : FloatOps) (hydro : Hydro C P) (model : InitialModel) (mesh : Mesh)
    (geometry : List (BlockIndex × GridGeometry)) (t it dt : ℚ) :
    advance_rk ops hydro model mesh geometry ⟨t, it, []⟩ dt = some ⟨t + dt, it + 1, []⟩ :=
  rfl

/-- `State::weighted_average` of two states with no blocks. -/
theorem weighted_average_nil {C : Type} [Add C] [SMul ℚ C]
    (t1 i1 br t0 i0 : ℚ) :
    (⟨t1, i1, []⟩ : State C).weighted_average br ⟨t0, i0, []⟩ =
      some ⟨t1 * (-br + 1) + t0 * br, i1 * (-br + 1) + i0 * br, []⟩ :=
  rfl

/-- Trivial float-ops instance (all transcendentals zero), for witnesses
that never evaluate geometry. -/
def opsTriv : FloatOps :=
  ⟨0, fun _ => 0, fun _ => 0, fun _ => 0, fun _ => 0, fun _ => 0, fun _ _ => 0⟩

/-- A minimal hydrodynamics record over `C = P = ℚ`, for witnesses. -/
def hydroTrivQ : Hydro ℚ ℚ :=
  { cfl_number := 1
    global_signal_speed := none
    max_signal_speed := fun _ => 1
    try_to_primitive := fun u => .ok u
    to_primitive := fun u => u
    to_conserved := fun p => p
    lab_frame_mass := fun u => u
    lorentz_factor := fun _ => 1
    plm_gradient_primitive := fun _ _ _ => 0
    plm_gradient_scalar := fun _ _ _ => 0
    intercell_flux := fun _ _ _ _ _ => (0, 0)
    geometrical_source_terms := fun _ _ => 0
    gravitational_source_terms := fun _ _ => 0
    interpret := fun a => a.mass_density }

/-- A trivial initial model. -/
def modelTriv : InitialModel :=
  ⟨fun _ _ => ⟨0, 0, 0, 0⟩, fun _ _ => 0⟩

/-- Witness for C8: on an empty-block state with `dt = 1`, one advance
adds one iteration; a half-weighted average splits iterations exactly; an
advance-then-average stage adds `1 - b = 1/2`; and a full RK3 step adds
exactly 1. -/
theorem c8_iteration_rational_witness :
    (advance_rk opsTriv hydroTrivQ modelTriv meshInnerZero [] ⟨0, 0, []⟩ 1 =
      some ⟨0 + 1, 0 + 1, []⟩ ∧
      (⟨0 + 1, 0 + 1, []⟩ : State ℚ).iteration = (⟨0, 0, []⟩ : State ℚ).iteration + 1) ∧
    ((⟨1, 1, []⟩ : State ℚ).weighted_average (1 / 2) ⟨0, 0, []⟩ =
      some ⟨1 * (-(1 / 2) + 1) + 0 * (1 / 2), 1 * (-(1 / 2) + 1) + 0 * (1 / 2), []⟩ ∧
      (1 * (-(1 / 2) + 1) + 0 * (1 / 2) : ℚ) = (1 - 1 / 2) * 1 + (1 / 2) * 0) ∧
    (∃ st' : State ℚ,
      rkStep .RK3 (fun x => advance_rk opsTriv hydroTrivQ modelTriv meshInnerZero [] x 1)
        ⟨0, 0, []⟩ = some st' ∧ st'.iteration = (⟨0, 0, []⟩ : State ℚ).iteration + 1) := by
  have hadv : ∀ t it : ℚ,
      advance_rk opsTriv hydroTrivQ modelTriv meshInnerZero [] ⟨t, it, []⟩ 1 =
        some ⟨t + 1, it + 1, []⟩ :=
    fun t it => advance_rk_nil opsTriv hydroTrivQ modelTriv meshInnerZero [] t it 1
  refine ⟨⟨hadv 0 0, ?_⟩, ⟨weighted_average_nil 1 1 (1 / 2) 0 0, ?_⟩, ?_⟩
  · exact (c8_iteration_rational opsTriv hydroTrivQ modelTriv meshInnerZero [] 1).1
      ⟨0, 0, []⟩ ⟨0 + 1, 0 + 1, []⟩ (hadv 0 0)
  · exact (c8_iteration_rational opsTriv hydroTrivQ modelTriv meshInnerZero [] 1).2.1
      ⟨1, 1, []⟩ ⟨0, 0, []⟩ _ (1 / 2) (weighted_average_nil 1 1 (1 / 2) 0 0)
  · have heval : rkStep .RK3
        (fun x => advance_rk opsTriv hydroTrivQ modelTriv meshInnerZero [] x 1)
        (⟨0, 0, []⟩ : State ℚ) =
        some ⟨((0 + 1 + 1) * (-(3 / 4) + 1) + 0 * (3 / 4) + 1) * (-(1 / 3) + 1) + 0 * (1 / 3),
          ((0 + 1 + 1) * (-(3 / 4) + 1) + 0 * (3 / 4) + 1) * (-(1 / 3) + 1) + 0 * (1 / 3),
          []⟩ := by
      rw [rkStep]
      simp only [hadv, Option.bind_eq_bind, Option.some_bind, weighted_average_nil]
    exact ⟨_, heval, (c8_iteration_rational opsTriv hydroTrivQ modelTriv meshInnerZero [] 1).2.2.2
      .RK3 ⟨0, 0, []⟩ _ heval⟩

/-! ## Claim C6 -/

theorem lookupKey_removeKey_self {κ β : Type} [DecidableEq κ] (l : List (κ × β)) (k : κ) :
    lookupKey (removeKey l k) k = none := by
  induction l with
  | nil => rfl
  | cons kv rest ih =>
    rw [removeKey] at ih ⊢
    by_cases h : kv.1 = k
    · simp only [List.filter_cons, h]
      simpa using ih
    · simp only [List.filter_cons]
      rw [if_pos (by simpa using h)]
      rw [lookupKey, if_neg h]
      exact ih

theorem lookupKey_removeKey_ne {κ β : Type} [DecidableEq κ] (l : List (κ × β)) (k k' : κ)
    (h : k' ≠ k) : lookupKey (removeKey l k) k' = lookupKey l k' := by
  induction l with
  | nil => rfl
  | cons kv rest ih =>
    rw [removeKey] at ih ⊢
    simp only [List.filter_cons]
    by_cases hk : kv.1 = k
    · rw [if_neg (by simpa using hk), lookupKey, if_neg (fun hh : kv.1 = k' => h (hh ▸ hk)), ih]
    · rw [if_pos (by simpa using hk), lookupKey, lookupKey, ih]

theorem lookupKey_insertKey_self {κ β : Type} [DecidableEq κ] (l : List (κ × β)) (k : κ)
    (v : β) : lookupKey (insertKey l k v) k = some v := by
  induction l with
  | nil => rw [insertKey, lookupKey, if_pos rfl]
  | cons kv rest ih =>
    rw [insertKey]
    by_cases h : kv.1 = k
    · rw [if_pos h, lookupKey, if_pos rfl]
    · rw [if_neg h, lookupKey, if_neg h, ih]

theorem lookupKey_insertKey_ne {κ β : Type} [DecidableEq κ] (l : List (κ × β)) (k k' : κ)
    (v : β) (h : k' ≠ k) : lookupKey (insertKey l k v) k' = lookupKey l k' := by
  induction l with
  | nil =>
    rw [insertKey, lookupKey, lookupKey, if_neg (fun hh : (k, v).1 = k' => h hh.symm),
      lookupKey]
  | cons kv rest ih =>
    rw [insertKey]
    by_cases hk : kv.1 = k
    · rw [if_pos hk, lookupKey, lookupKey,
        if_neg (fun hh : (k, v).1 = k' => h hh.symm),
        if_neg (fun hh : kv.1 = k' => h (hh ▸ hk))]
    · rw [if_neg hk, lookupKey, lookupKey, ih]

theorem lookupKey_isSome_of_mem {κ β : Type} [DecidableEq κ] (l : List (κ × β)) (k : κ)
    (h : ∃ kv ∈ l, kv.1 = k) : ∃ v, lookupKey l k = some v := by
  induction l with
  | nil =>
    obtain ⟨kv, h1, _⟩ := h
    cases h1
  | cons kv rest ih =>
    rw [lookupKey]
    by_cases hk : kv.1 = k
    · exact ⟨kv.2, by rw [if_pos hk]⟩
    · rw [if_neg hk]
      apply ih
      obtain ⟨kv2, h1, h2⟩ := h
      rcases List.mem_cons.mp h1 with hh | hh
      · exact absurd (hh ▸ h2) hk
      · exact ⟨kv2, hh, h2⟩

theorem lookupKey_eq_none {κ β : Type} [DecidableEq κ] (l : List (κ × β)) (k : κ)
    (h : ∀ kv ∈ l, kv.1 ≠ k) : lookupKey l k = none := by
  induction l with
  | nil => rfl
  | cons kv rest ih =>
    rw [lookupKey, if_neg (h kv (List.mem_cons_self _ _))]
    exact ih (fun x hx => h x (List.mem_cons_of_mem _ hx))

/-- **C6.**  Topology reconciliation changes the block map only at the
extremes: one call to `add_remove_blocks` removes the minimum-index block
iff that block's outer radius is below `IES(state.time)`, inserts a block
at radial index `max + 1` (initialised from the initial model at the
current time) iff the maximum-index block's outer radius is below
`OES(state.time)`, and leaves every other entry of the solution map
unchanged.  (Keys are assumed to have polar component `0` and radial
components in `i32` range, as in the source.) -/
theorem c6_add_remove_blocks {C P : Type} [SMul ℚ C]
    (ops : FloatOps) (hydro : Hydro C P) (model : InitialModel) (mesh : Mesh)
    (s : State C) (geometry : List (BlockIndex × GridGeometry))
    (hne : s.solution ≠ [])
    (hbound : ∀ kv ∈ s.solution, i32MIN ≤ kv.1.1 ∧ kv.1.1 ≤ i32MAX)
    (hpolar : ∀ kv ∈ s.solution, kv.1.2 = 0) :
    ∃ m M : ℤ,
      (∀ kv ∈ s.solution, m ≤ kv.1.1 ∧ kv.1.1 ≤ M) ∧
      (∃ kv ∈ s.solution, kv.1.1 = m) ∧ (∃ kv ∈ s.solution, kv.1.1 = M) ∧
      (∃ bs, lookupKey s.solution ((m : ℤ), (0 : ℕ)) = some bs) ∧
      (add_remove_blocks ops hydro model mesh s geometry).1.time = s.time ∧
      (add_remove_blocks ops hydro model mesh s geometry).1.iteration = s.iteration ∧
      lookupKey (add_remove_blocks ops hydro model mesh s geometry).1.solution (m, 0) =
        (if (mesh.subgrid_extent ops (m, 0)).outer_radius <
            mesh.inner_excision_surface s.time
         then none else lookupKey s.solution (m, 0)) ∧
      lookupKey (add_remove_blocks ops hydro model mesh s geometry).1.solution (M + 1, 0) =
        (if (mesh.subgrid_extent ops (M, 0)).outer_radius <
            mesh.outer_excision_surface s.time
         then some (BlockState.from_model model hydro
            ((mesh.subgrid ops (M + 1, 0)).geometry ops) s.time)
         else none) ∧
      (∀ k : BlockIndex, k ≠ (m, 0) → k ≠ (M + 1, 0) →
        lookupKey (add_remove_blocks ops hydro model mesh s geometry).1.solution k =
          lookupKey s.solution k) := by
  obtain ⟨m, M, heq, hmemm, hlb, hmemM, hub⟩ :=
    minmax_offset_spec s 0 le_rfl hne (fun kv hkv => by have := hbound kv hkv; omega)
  have hio : s.inner_outer_block_indexes = ((m, 0), (M, 0)) := by
    show s.min_max_block_indexes_offset_by 0 = _
    rw [heq]
    norm_num
  have hMabs : ∀ kv ∈ s.solution, kv.1 ≠ ((M + 1 : ℤ), (0 : ℕ)) := by
    intro kv hkv hk
    have h1 := hub kv hkv
    rw [hk] at h1
    omega
  have hnone : lookupKey s.solution ((M + 1 : ℤ), (0 : ℕ)) = none :=
    lookupKey_eq_none _ _ hMabs
  have hres : (add_remove_blocks ops hydro model mesh s geometry).1.solution =
      (if (mesh.subgrid_extent ops ((M : ℤ), (0 : ℕ))).outer_radius <
          mesh.outer_excision_surface s.time
       then insertKey
          (if (mesh.subgrid_extent ops ((m : ℤ), (0 : ℕ))).outer_radius <
              mesh.inner_excision_surface s.time
           then removeKey s.solution ((m : ℤ), (0 : ℕ)) else s.solution)
          ((M + 1 : ℤ), (0 : ℕ))
          (BlockState.from_model model hydro
            ((mesh.subgrid ops ((M + 1 : ℤ), (0 : ℕ))).geometry ops) s.time)
       else
        (if (mesh.subgrid_extent ops ((m : ℤ), (0 : ℕ))).outer_radius <
            mesh.inner_excision_surface s.time
         then removeKey s.solution ((m : ℤ), (0 : ℕ)) else s.solution)) := by
    unfold add_remove_blocks
    rw [hio]
  have htime : (add_remove_blocks ops hydro model mesh s geometry).1.time = s.time := by
    unfold add_remove_blocks
    rw [hio]
  have hiter : (add_remove_blocks ops hydro model mesh s geometry).1.iteration =
      s.iteration := by
    unfold add_remove_blocks
    rw [hio]
  have hmM : m ≤ M := by
    obtain ⟨kv, hkv, hkvm⟩ := hmemm
    have hb1 := hub kv hkv
    omega
  have hminsome : ∃ bs, lookupKey s.solution ((m : ℤ), (0 : ℕ)) = some bs := by
    apply lookupKey_isSome_of_mem
    obtain ⟨kv, hkv, hkvm⟩ := hmemm
    refine ⟨kv, hkv, ?_⟩
    have hp := hpolar kv hkv
    exact Prod.ext hkvm hp
  refine ⟨m, M, fun kv hkv => ⟨hlb kv hkv, hub kv hkv⟩, hmemm, hmemM, hminsome, htime, hiter,
    ?_, ?_, ?_⟩
  · rw [hres]
    by_cases h2 : (mesh.subgrid_extent ops ((M : ℤ), (0 : ℕ))).outer_radius <
        mesh.outer_excision_surface s.time
    · rw [if_pos h2]
      rw [lookupKey_insertKey_ne _ _ _ _ (by intro hh; injection hh with h1 _; omega)]
      by_cases h1 : (mesh.subgrid_extent ops ((m : ℤ), (0 : ℕ))).outer_radius <
          mesh.inner_excision_surface s.time
      · rw [if_pos h1, if_pos h1, lookupKey_removeKey_self]
      · rw [if_neg h1, if_neg h1]
    · rw [if_neg h2]
      by_cases h1 : (mesh.subgrid_extent ops ((m : ℤ), (0 : ℕ))).outer_radius <
          mesh.inner_excision_surface s.time
      · rw [if_pos h1, if_pos h1, lookupKey_removeKey_self]
      · rw [if_neg h1, if_neg h1]
  · rw [hres]
    by_cases h2 : (mesh.subgrid_extent ops ((M : ℤ), (0 : ℕ))).outer_radius <
        mesh.outer_excision_surface s.time
    · rw [if_pos h2, if_pos h2, lookupKey_insertKey_self]
    · rw [if_neg h2, if_neg h2]
      by_cases h1 : (mesh.subgrid_extent ops ((m : ℤ), (0 : ℕ))).outer_radius <
          mesh.inner_excision_surface s.time
      · rw [if_pos h1, lookupKey_removeKey_ne _ _ _ (by intro hh; injection hh with hA _; omega)]
        exact hnone
      · rw [if_neg h1]
        exact hnone
  · intro k hkm hkM
    rw [hres]
    by_cases h2 : (mesh.subgrid_extent ops ((M : ℤ), (0 : ℕ))).outer_radius <
        mesh.outer_excision_surface s.time
    · rw [if_pos h2, lookupKey_insertKey_ne _ _ _ _ hkM]
      by_cases h1 : (mesh.subgrid_extent ops ((m : ℤ), (0 : ℕ))).outer_radius <
          mesh.inner_excision_surface s.time
      · rw [if_pos h1, lookupKey_removeKey_ne _ _ _ hkm]
      · rw [if_neg h1]
    · rw [if_neg h2]
      by_cases h1 : (mesh.subgrid_extent ops ((m : ℤ), (0 : ℕ))).outer_radius <
          mesh.inner_excision_surface s.time
      · rw [if_pos h1, lookupKey_removeKey_ne _ _ _ hkm]
      · rw [if_neg h1]

/-- A sample two-block state with polar-0 keys at radial indices 3 and 4. -/
def sampleStateC6 : State ℚ :=
  { time := 0
    iteration := 0
    solution := [((3, 0), zeroBlockQ), ((4, 0), zeroBlockQ)] }

/-- Witness for C6, on the sample two-block state. -/
theorem c6_add_remove_blocks_witness :
    sampleStateC6.solution ≠ [] ∧
    (∀ kv ∈ sampleStateC6.solution, i32MIN ≤ kv.1.1 ∧ kv.1.1 ≤ i32MAX) ∧
    (∀ kv ∈ sampleStateC6.solution, kv.1.2 = 0) ∧
    (∃ m M : ℤ,
      (∀ kv ∈ sampleStateC6.solution, m ≤ kv.1.1 ∧ kv.1.1 ≤ M) ∧
      (∃ kv ∈ sampleStateC6.solution, kv.1.1 = m) ∧
      (∃ kv ∈ sampleStateC6.solution, kv.1.1 = M) ∧
      (∃ bs, lookupKey sampleStateC6.solution ((m : ℤ), (0 : ℕ)) = some bs) ∧
      (add_remove_blocks opsTriv hydroTrivQ modelTriv meshInnerZero sampleStateC6 []).1.time =
        sampleStateC6.time ∧
      (add_remove_blocks opsTriv hydroTrivQ modelTriv meshInnerZero sampleStateC6 []).1.iteration =
        sampleStateC6.iteration ∧
      lookupKey (add_remove_blocks opsTriv hydroTrivQ modelTriv meshInnerZero
          sampleStateC6 []).1.solution (m, 0) =
        (if (meshInnerZero.subgrid_extent opsTriv (m, 0)).outer_radius <
            meshInnerZero.inner_excision_surface sampleStateC6.time
         then none else lookupKey sampleStateC6.solution (m, 0)) ∧
      lookupKey (add_remove_blocks opsTriv hydroTrivQ modelTriv meshInnerZero
          sampleStateC6 []).1.solution (M + 1, 0) =
        (if (meshInnerZero.subgrid_extent opsTriv (M, 0)).outer_radius <
            meshInnerZero.outer_excision_surface sampleStateC6.time
         then some (BlockState.from_model modelTriv hydroTrivQ
            ((meshInnerZero.subgrid opsTriv (M + 1, 0)).geometry opsTriv) sampleStateC6.time)
         else none) ∧
      (∀ k : BlockIndex, k ≠ (m, 0) → k ≠ (M + 1, 0) →
        lookupKey (add_remove_blocks opsTriv hydroTrivQ modelTriv meshInnerZero
            sampleStateC6 []).1.solution k =
          lookupKey sampleStateC6.solution k)) := by
  have hne : sampleStateC6.solution ≠ [] := by simp [sampleStateC6]
  have hb : ∀ kv ∈ sampleStateC6.solution, i32MIN ≤ kv.1.1 ∧ kv.1.1 ≤ i32MAX := by
    intro kv hkv
    simp only [sampleStateC6, List.mem_cons, List.not_mem_nil, or_false] at hkv
    rcases hkv with h | h <;> subst h <;> exact ⟨by decide, by decide⟩
  have hp : ∀ kv ∈ sampleStateC6.solution, kv.1.2 = 0 := by
    intro kv hkv
    simp only [sampleStateC6, List.mem_cons, List.not_mem_nil, or_false] at hkv
    rcases hkv with h | h <;> subst h <;> rfl
  exact ⟨hne, hb, hp,
    c6_add_remove_blocks opsTriv hydroTrivQ modelTriv meshInnerZero sampleStateC6 [] hne hb hp⟩

/-! ## Claim C1 -/

/-- The per-cell `dl / max_signal_speed(p)` ratios of one block, in the
row-major cell order (the `zip` inside the adaptive branch of
`State::time_step`). -/
def tsRatios {C P : Type} [SMul ℚ C] (ops : FloatOps) (hydro : Hydro C P) (mesh : Mesh)
    (kv : BlockIndex × BlockState C) (ps : List P) : List ℚ :=
  let geometry := (mesh.subgrid ops kv.1).geometry ops
  (ps.zip ((cellsRowMajor mesh.block_size mesh.num_polar_zones).map
    (fun ij => geometry.cell_linear_dimension ij.1 ij.2))).map
    (fun pdl => pdl.2 / hydro.max_signal_speed pdl.1)

/-- The claim's reading of the quantity `dl_min` (stated from the spec's
words, as the refinement target for C1): the smallest cell linear dimension
`min(dr, r * dtheta)` over all cells of an `(nr, nq)`-shaped block
geometry.  Compare `Mesh::smallest_spacing`, which the source actually
uses and which only measures the radial width of zone `(0, 0)`. -/
def smallestCellLinearDimension (g : GridGeometry) (nr nq : ℕ) : ℚ :=
  ((cellsRowMajor nr nq).map (fun ij => g.cell_linear_dimension ij.1 ij.2)).foldl
    min (g.cell_linear_dimension 0 0)

/-- Fusing a minimising fold with the map that produces its entries. -/
theorem foldl_min_comp {α β : Type} [LinearOrder β] (g : α → β) (l : List α) :
    ∀ d : β, l.foldl (fun a x => min a (g x)) d = (l.map g).foldl min d := by
  induction l with
  | nil => intro d; rfl
  | cons x xs ih =>
    intro d
    simp only [List.foldl_cons, List.map_cons]
    exact ih _

/-- When primitive recovery succeeds on the whole block, `timeStepBlock`
folds the per-cell ratios into the accumulator. -/
theorem timeStepBlock_ok {C P : Type} [SMul ℚ C] (ops : FloatOps) (hydro : Hydro C P)
    (mesh : Mesh) (dt : ℚ) (kv : BlockIndex × BlockState C) (ps : List P)
    (hok : kv.2.try_to_primitive hydro ((mesh.subgrid ops kv.1).geometry ops)
      mesh.block_size mesh.num_polar_zones = .ok ps) :
    timeStepBlock ops hydro mesh dt kv =
      .ok ((tsRatios ops hydro mesh kv ps).foldl min dt) := by
  simp only [timeStepBlock]
  rw [hok]
  refine congrArg Except.ok ?_
  simp only [tsRatios]
  rw [foldl_min_comp]
  exact min_eq_right (foldl_min_le _ _ _ (List.mem_cons_self _ _))

/-- When primitive recovery fails on the block, `timeStepBlock` returns the
error. -/
theorem timeStepBlock_err {C P : Type} [SMul ℚ C] (ops : FloatOps) (hydro : Hydro C P)
    (mesh : Mesh) (dt : ℚ) (kv : BlockIndex × BlockState C) (e : HydroError)
    (herr : kv.2.try_to_primitive hydro ((mesh.subgrid ops kv.1).geometry ops)
      mesh.block_size mesh.num_polar_zones = .error e) :
    timeStepBlock ops hydro mesh dt kv = .error e := by
  simp only [timeStepBlock]
  rw [herr]
  rfl

/-- The all-blocks success case of the adaptive time-step fold: the result
is the fold of every block's ratio list, in order, into the seed. -/
theorem timeStep_fold_ok {C P : Type} [SMul ℚ C] (ops : FloatOps) (hydro : Hydro C P)
    (mesh : Mesh) (psf : BlockIndex × BlockState C → List P) :
    ∀ blocks : List (BlockIndex × BlockState C),
    (∀ kv ∈ blocks, kv.2.try_to_primitive hydro ((mesh.subgrid ops kv.1).geometry ops)
      mesh.block_size mesh.num_polar_zones = .ok (psf kv)) →
    ∀ d0 : ℚ, blocks.foldlM (timeStepBlock ops hydro mesh) d0 =
      .ok ((blocks.flatMap (fun kv => tsRatios ops hydro mesh kv (psf kv))).foldl min d0) := by
  intro blocks
  induction blocks with
  | nil => intro _ d0; rfl
  | cons kv rest ih =>
    intro hall d0
    rw [List.foldlM_cons, timeStepBlock_ok ops hydro mesh d0 kv (psf kv)
      (hall kv (List.mem_cons_self _ _))]
    rw [List.flatMap_cons, List.foldl_append]
    exact ih (fun kv2 h => hall kv2 (List.mem_cons_of_mem _ h)) _

/-- The failure case of the adaptive time-step fold: some block's recovery
error is returned. -/
theorem timeStep_fold_err {C P : Type} [SMul ℚ C] (ops : FloatOps) (hydro : Hydro C P)
    (mesh : Mesh) :
    ∀ blocks : List (BlockIndex × BlockState C), ∀ d0 : ℚ,
    (∃ kv ∈ blocks, ∃ e, kv.2.try_to_primitive hydro ((mesh.subgrid ops kv.1).geometry ops)
      mesh.block_size mesh.num_polar_zones = .error e) →
    ∃ kv ∈ blocks, ∃ e,
      kv.2.try_to_primitive hydro ((mesh.subgrid ops kv.1).geometry ops)
        mesh.block_size mesh.num_polar_zones = .error e ∧
      blocks.foldlM (timeStepBlock ops hydro mesh) d0 = .error e := by
  intro blocks
  induction blocks with
  | nil =>
    intro d0 h
    obtain ⟨kv, hkv, _⟩ := h
    cases hkv
  | cons kv rest ih =>
    intro d0 hex
    cases htp : kv.2.try_to_primitive hydro ((mesh.subgrid ops kv.1).geometry ops)
        mesh.block_size mesh.num_polar_zones with
    | error e =>
      refine ⟨kv, List.mem_cons_self _ _, e, htp, ?_⟩
      rw [List.foldlM_cons, timeStepBlock_err ops hydro mesh d0 kv e htp]
      rfl
    | ok ps =>
      have hex' : ∃ kv2 ∈ rest, ∃ e,
          kv2.2.try_to_primitive hydro ((mesh.subgrid ops kv2.1).geometry ops)
            mesh.block_size mesh.num_polar_zones = .error e := by
        obtain ⟨kv2, hmem, e, herr⟩ := hex
        rcases List.mem_cons.mp hmem with h | h
        · subst h
          rw [htp] at herr
          exact Except.noConfusion herr
        · exact ⟨kv2, h, e, herr⟩
      obtain ⟨kv2, hmem, e, herr, hfold⟩ :=
        ih ((tsRatios ops hydro mesh kv ps).foldl min d0) hex'
      refine ⟨kv2, List.mem_cons_of_mem _ hmem, e, herr, ?_⟩
      rw [List.foldlM_cons, timeStepBlock_ok ops hydro mesh d0 kv ps htp]
      exact hfold

/-- **C1 (amended).**  `State::time_step` (`state.rs`): when
`global_signal_speed()` is `Some(v)`, the result is `cfl_number` times the
radial width of zone `(0, 0)` of the innermost block
(`Mesh::smallest_spacing`) divided by `v` — not the smallest cell linear
dimension `min(dr, r*dtheta)` over the innermost block's cells, as the
claim states (see `c1_time_step_counterexample`).  When
`global_signal_speed()` is `None`: if primitive recovery succeeds on every
cell of every block and no per-cell ratio exceeds the `f64::MAX` seed, the
result is `cfl_number` times the minimum over all cells of all blocks of
`dl / max_signal_speed(p)`; and any recovery error is propagated as the
result. -/
theorem c1_time_step_spec {C P : Type} [SMul ℚ C] (ops : FloatOps) (hydro : Hydro C P)
    (mesh : Mesh) (s : State C) (hne : s.solution ≠ [])
    (hbound : ∀ kv ∈ s.solution, i32MIN ≤ kv.1.1 ∧ kv.1.1 ≤ i32MAX) :
    (∀ v : ℚ, hydro.global_signal_speed = some v →
      ∃ m : ℤ, (∃ kv ∈ s.solution, kv.1.1 = m) ∧ (∀ kv ∈ s.solution, m ≤ kv.1.1) ∧
        s.time_step ops hydro mesh =
          .ok (hydro.cfl_number *
            (((mesh.subgrid ops (m, (0 : ℕ))).zone ops (0, 0)).outer_radius -
             ((mesh.subgrid ops (m, (0 : ℕ))).zone ops (0, 0)).inner_radius) / v)) ∧
    (hydro.global_signal_speed = none →
      ∀ psf : BlockIndex × BlockState C → List P,
      (∀ kv ∈ s.solution, kv.2.try_to_primitive hydro ((mesh.subgrid ops kv.1).geometry ops)
        mesh.block_size mesh.num_polar_zones = .ok (psf kv)) →
      ∀ r0 : ℚ, ∀ rs : List ℚ,
      s.solution.flatMap (fun kv => tsRatios ops hydro mesh kv (psf kv)) = r0 :: rs →
      (∀ r ∈ r0 :: rs, r ≤ f64MAX) →
      ∃ rmin : ℚ, rmin ∈ r0 :: rs ∧ (∀ r ∈ r0 :: rs, rmin ≤ r) ∧
        s.time_step ops hydro mesh = .ok (hydro.cfl_number * rmin)) ∧
    (hydro.global_signal_speed = none →
      (∃ kv ∈ s.solution, ∃ e,
        kv.2.try_to_primitive hydro ((mesh.subgrid ops kv.1).geometry ops)
          mesh.block_size mesh.num_polar_zones = .error e) →
      ∃ kv ∈ s.solution, ∃ e,
        kv.2.try_to_primitive hydro ((mesh.subgrid ops kv.1).geometry ops)
          mesh.block_size mesh.num_polar_zones = .error e ∧
        s.time_step ops hydro mesh = .error e) := by
  refine ⟨?_, ?_, ?_⟩
  · intro v hv
    obtain ⟨m, M, hres, hmem, hmin, _, _⟩ :=
      minmax_offset_spec s 0 le_rfl hne
        (by intro kv hkv; have := hbound kv hkv; omega)
    refine ⟨m, hmem, hmin, ?_⟩
    have hts : s.time_step ops hydro mesh =
        .ok (hydro.cfl_number *
          mesh.smallest_spacing ops s.inner_outer_block_indexes.1 / v) := by
      unfold State.time_step
      rw [hv]
    have h1 : s.inner_outer_block_indexes = ((m, 0), (M, 0)) := by
      show s.min_max_block_indexes_offset_by 0 = _
      rw [hres]
      norm_num
    rw [hts, h1]
    rfl
  · intro hnone psf hok r0 rs hflat hbnd
    have hts : s.time_step ops hydro mesh =
        (s.solution.foldlM (timeStepBlock ops hydro mesh) f64MAX) >>=
          (fun d => pure (d * hydro.cfl_number)) := by
      unfold State.time_step
      rw [hnone]
    rw [timeStep_fold_ok ops hydro mesh psf s.solution hok f64MAX] at hts
    rw [hflat] at hts
    have hts2 : s.time_step ops hydro mesh =
        .ok (((r0 :: rs).foldl min f64MAX) * hydro.cfl_number) := hts
    have hfold1 : (r0 :: rs).foldl min f64MAX = rs.foldl min r0 := by
      rw [List.foldl_cons, foldl_min_init]
      exact min_eq_right (le_trans (foldl_min_le _ _ _ (List.mem_cons_self _ _))
        (hbnd r0 (List.mem_cons_self _ _)))
    refine ⟨rs.foldl min r0, foldl_min_mem rs r0, fun r hr => foldl_min_le rs r0 r hr, ?_⟩
    rw [hts2, hfold1]
    exact congrArg Except.ok (mul_comm _ _)
  · intro hnone hex
    obtain ⟨kv, hmem, e, herr, hfold⟩ := timeStep_fold_err ops hydro mesh s.solution f64MAX hex
    refine ⟨kv, hmem, e, herr, ?_⟩
    have hts : s.time_step ops hydro mesh =
        (s.solution.foldlM (timeStepBlock ops hydro mesh) f64MAX) >>=
          (fun d => pure (d * hydro.cfl_number)) := by
      unfold State.time_step
      rw [hnone]
    rw [hts, hfold]
    rfl

/-- The `f64` reading of `log10(3)`. -/
def log10_3 : ℚ := 47712125471966244 / 100000000000000000

/-- The `f64` reading of `sqrt(3) = 10 ^ (log10(3) / 2)`. -/
def sqrt3 : ℚ := 17320508075688772 / 10000000000000000

/-- Concrete floating-point behaviour for the C1 counterexample: `pi` is
the `f64` reading of `PI`, `log10` is tabulated at the two block vertex
radii `1` and `3`, and `10 ^ y` at the three radial vertex exponents `0`,
`log10(3)/2` and `log10(3)`.  The remaining routines are unused by the
counterexample. -/
def opsC1 : FloatOps :=
  { pi := 884279719003555 / 281474976710656
    log10 := fun x => if x = 1 then 0 else if x = 3 then log10_3 else 0
    pow10 := fun y =>
      if y = 0 then 1
      else if y = log10_3 / 2 then sqrt3
      else if y = log10_3 then 3
      else 0
    sin := fun _ => 0
    cos := fun _ => 0
    sqrt := fun _ => 0
    powf := fun _ _ => 0 }

/-- The C1 counterexample mesh: one radial zone per decade
(`num_radial_zones = Some(1)`), 16 polar zones, blocks of 2 radial zones,
so block `(0, _)` spans radii `[1, 3]` with vertices `1, sqrt(3), 3`. -/
def meshC1 : Mesh :=
  { reference_radius := 1
    inner_radius := 1
    outer_radius := 10
    inner_excision_speed := 0
    outer_excision_speed := 0
    num_radial_zones := some 1
    num_polar_zones := 16
    block_size := 2
    excision_delay := none }

/-- An all-zero `SrhdConserved` block. -/
def zeroBlockSrhd : BlockState SrhdConserved :=
  { conserved := fun _ _ => 0, scalar_mass := fun _ _ => 0 }

/-- A one-block state at radial index 0. -/
def stateC1 : State SrhdConserved :=
  { time := 0, iteration := 0, solution := [((0, 0), zeroBlockSrhd)] }

/-- The relativistic back-end with a fixed (non-adaptive) time step, over
the C1 float table. -/
def hydroC1 : Hydro SrhdConserved SrhdPrimitive :=
  rhSample.toHydro opsC1 extSample

/-- **C1 counterexample.**  On a valid mesh whose innermost block spans
radii `[1, 3]` with 2 radial zones and 16 polar zones, the claim's
`dl_min` — the minimum over the block's cells of `min(dr, r*dtheta)` — is
the polar arc `pi/16` at the inner vertex, but the code's
`Mesh::smallest_spacing` is the radial width `sqrt(3) - 1` of zone
`(0, 0)`; the computed time step uses the latter, so it differs from the
claim's `cfl * dl_min / v` formula. -/
theorem c1_time_step_counterexample :
    meshC1.validate 0 = .ok () ∧
    hydroC1.global_signal_speed = some LIGHT_SPEED ∧
    stateC1.inner_outer_block_indexes.1 = ((0 : ℤ), (0 : ℕ)) ∧
    stateC1.time_step opsC1 hydroC1 meshC1 =
      .ok (hydroC1.cfl_number * (sqrt3 - 1) / LIGHT_SPEED) ∧
    smallestCellLinearDimension ((meshC1.subgrid opsC1 ((0 : ℤ), (0 : ℕ))).geometry opsC1)
      meshC1.block_size meshC1.num_polar_zones = opsC1.pi / 16 ∧
    stateC1.time_step opsC1 hydroC1 meshC1 ≠
      .ok (hydroC1.cfl_number *
        smallestCellLinearDimension ((meshC1.subgrid opsC1 ((0 : ℤ), (0 : ℕ))).geometry opsC1)
          meshC1.block_size meshC1.num_polar_zones / LIGHT_SPEED) := by
  have hvalid : meshC1.validate 0 = .ok () := by
    rw [Mesh.validate]
    norm_num [meshC1, Mesh.outer_excision_surface]
  have hv : hydroC1.global_signal_speed = some LIGHT_SPEED := rfl
  have hinner : stateC1.inner_outer_block_indexes.1 = ((0 : ℤ), (0 : ℕ)) := by
    decide
  have hss : meshC1.smallest_spacing opsC1 ((0 : ℤ), (0 : ℕ)) = sqrt3 - 1 := by
    norm_num [Mesh.smallest_spacing, Mesh.subgrid, Mesh.subgrid_extent,
      SphericalPolarExtent.grid, SphericalPolarGrid.zone, SphericalPolarGrid.zone_signed,
      SphericalPolarGrid.vertex_coordinate_signed, meshC1, opsC1,
      Mesh.block_dlogr, Mesh.zone_dlogr, log10_3]
  have hts : stateC1.time_step opsC1 hydroC1 meshC1 =
      .ok (hydroC1.cfl_number *
        meshC1.smallest_spacing opsC1 stateC1.inner_outer_block_indexes.1 / LIGHT_SPEED) := by
    unfold State.time_step
    rw [hv]
  have hts2 : stateC1.time_step opsC1 hydroC1 meshC1 =
      .ok (hydroC1.cfl_number * (sqrt3 - 1) / LIGHT_SPEED) := by
    rw [hts, hinner, hss]
  have hcells : cellsRowMajor 2 16 =
      [(0, 0), (0, 1), (0, 2), (0, 3), (0, 4), (0, 5), (0, 6), (0, 7),
       (0, 8), (0, 9), (0, 10), (0, 11), (0, 12), (0, 13), (0, 14), (0, 15),
       (1, 0), (1, 1), (1, 2), (1, 3), (1, 4), (1, 5), (1, 6), (1, 7),
       (1, 8), (1, 9), (1, 10), (1, 11), (1, 12), (1, 13), (1, 14), (1, 15)] := by
    rfl
  have hdl : smallestCellLinearDimension
      ((meshC1.subgrid opsC1 ((0 : ℤ), (0 : ℕ))).geometry opsC1)
      meshC1.block_size meshC1.num_polar_zones = opsC1.pi / 16 := by
    show smallestCellLinearDimension _ 2 16 = _
    rw [smallestCellLinearDimension, hcells]
    norm_num [GridGeometry.cell_linear_dimension, SphericalPolarGrid.geometry,
      SphericalPolarGrid.vertex_coordinate, SphericalPolarGrid.vertex_coordinate_signed,
      SphericalPolarGrid.zone, SphericalPolarGrid.zone_signed,
      Mesh.subgrid, Mesh.subgrid_extent, SphericalPolarExtent.grid,
      Mesh.block_dlogr, Mesh.zone_dlogr, meshC1, opsC1, log10_3, sqrt3, min_def]
  refine ⟨hvalid, hv, hinner, hts2, hdl, ?_⟩
  rw [hts2, hdl]
  intro hcontra
  have heq := Except.ok.inj hcontra
  have hcfl : hydroC1.cfl_number = 2 / 5 := rfl
  rw [hcfl] at heq
  norm_num [sqrt3, opsC1, LIGHT_SPEED] at heq

/-- Witness for C1, part 1 (the global-signal-speed branch) on the
one-block sample state: the innermost radial index is 0 and the theorem's
formula applies there. -/
theorem c1_time_step_spec_witness :
    stateC1.solution ≠ [] ∧
    (∀ kv ∈ stateC1.solution, i32MIN ≤ kv.1.1 ∧ kv.1.1 ≤ i32MAX) ∧
    (∃ m : ℤ, (∃ kv ∈ stateC1.solution, kv.1.1 = m) ∧
      (∀ kv ∈ stateC1.solution, m ≤ kv.1.1) ∧
      stateC1.time_step opsC1 hydroC1 meshC1 =
        .ok (hydroC1.cfl_number *
          (((meshC1.subgrid opsC1 (m, (0 : ℕ))).zone opsC1 (0, 0)).outer_radius -
           ((meshC1.subgrid opsC1 (m, (0 : ℕ))).zone opsC1 (0, 0)).inner_radius) /
          LIGHT_SPEED)) := by
  have hne : stateC1.solution ≠ [] := by
    simp [stateC1]
  have hb : ∀ kv ∈ stateC1.solution, i32MIN ≤ kv.1.1 ∧ kv.1.1 ≤ i32MAX := by
    intro kv hkv
    simp only [stateC1, List.mem_cons, List.not_mem_nil, or_false] at hkv
    subst hkv
    exact ⟨by decide, by decide⟩
  exact ⟨hne, hb,
    (c1_time_step_spec opsC1 hydroC1 meshC1 stateC1 hne hb).1 LIGHT_SPEED rfl⟩

/-! ## Claim C9 -/

/-- `collect` over a mapped list with no failures: the list of successes. -/
theorem collectExcept_ok {ε α β : Type} (f : β → Except ε α) (g : β → α) :
    ∀ l : List β, (∀ x ∈ l, f x = .ok (g x)) →
    collectExcept (l.map f) = .ok (l.map g) := by
  intro l
  induction l with
  | nil => intro _; rfl
  | cons x xs ih =>
    intro hall
    show collectExcept (f x :: xs.map f) = .ok (g x :: xs.map g)
    have h1 : collectExcept (f x :: xs.map f) =
        (f x) >>= (fun a => collectExcept (xs.map f) >>= fun rest => pure (a :: rest)) := rfl
    rw [h1, hall x (List.mem_cons_self _ _),
      ih (fun y h => hall y (List.mem_cons_of_mem _ h))]
    rfl

/-- `collect` over a mapped list whose first failure is at `x`: the
failure itself. -/
theorem collectExcept_append_err {ε α β : Type} (f : β → Except ε α) (e : ε) :
    ∀ l1 : List β, ∀ x : β, ∀ l2 : List β,
    (∀ y ∈ l1, ∃ a, f y = .ok a) → f x = .error e →
    collectExcept ((l1 ++ x :: l2).map f) = .error e := by
  intro l1
  induction l1 with
  | nil =>
    intro x l2 _ herr
    show collectExcept (f x :: l2.map f) = _
    have h1 : collectExcept (f x :: l2.map f) =
        (f x) >>= (fun a => collectExcept (l2.map f) >>= fun rest => pure (a :: rest)) := rfl
    rw [h1, herr]
    rfl
  | cons y ys ih =>
    intro x l2 hall herr
    obtain ⟨a, ha⟩ := hall y (List.mem_cons_self _ _)
    show collectExcept (f y :: (ys ++ x :: l2).map f) = _
    have h1 : collectExcept (f y :: (ys ++ x :: l2).map f) =
        (f y) >>= (fun b =>
          collectExcept ((ys ++ x :: l2).map f) >>= fun rest => pure (b :: rest)) := rfl
    rw [h1, ha, ih x l2 (fun z h => hall z (List.mem_cons_of_mem _ h)) herr]
    rfl

/-- Scalar multiplication on `SrhdConserved`, componentwise (the
instance's defining equation, for concrete evaluation). -/
theorem smul_srhdConserved (q : ℚ) (a : SrhdConserved) :
    q • a = ⟨q * a.d, q * a.sr, q * a.sq, q * a.tau⟩ := rfl

/-- **C9.**  Per-cell error localisation (`state.rs`):
`BlockState::try_to_primitive` divides the conserved array by the cell
volumes and converts every cell without panicking — if every cell
converts it returns the row-major list of primitives, and if a cell fails
with all earlier (row-major) cells succeeding it returns that cell's
back-end error with the cell's center coordinates attached
(`HydroErrorType::at_position`); the cell center of a cached grid
geometry is the zone's centroid; and a `time_step` in the adaptive branch
over a state whose leading block fails recovery — e.g. with a negative
energy density — returns exactly that positioned error. -/
theorem c9_error_localisation {C P : Type} [SMul ℚ C] (ops : FloatOps) (hydro : Hydro C P)
    (mesh : Mesh) :
    (∀ geometry : GridGeometry, ∀ nr nq : ℕ, ∀ bs : BlockState C, ∀ pf : ℕ → ℕ → P,
      (∀ ij ∈ cellsRowMajor nr nq,
        hydro.try_to_primitive ((geometry.cell_volumes ij.1 ij.2)⁻¹ • bs.conserved ij.1 ij.2) =
          .ok (pf ij.1 ij.2)) →
      bs.try_to_primitive hydro geometry nr nq =
        .ok ((cellsRowMajor nr nq).map (fun ij => pf ij.1 ij.2))) ∧
    (∀ geometry : GridGeometry, ∀ nr nq : ℕ, ∀ bs : BlockState C,
      ∀ l1 l2 : List (ℕ × ℕ), ∀ i j : ℕ, ∀ et : HydroErrorType,
      cellsRowMajor nr nq = l1 ++ (i, j) :: l2 →
      (∀ ij ∈ l1, ∃ p, hydro.try_to_primitive
        ((geometry.cell_volumes ij.1 ij.2)⁻¹ • bs.conserved ij.1 ij.2) = .ok p) →
      hydro.try_to_primitive ((geometry.cell_volumes i j)⁻¹ • bs.conserved i j) = .error et →
      bs.try_to_primitive hydro geometry nr nq =
        .error (et.at_position (geometry.cell_centers i j))) ∧
    (∀ g : SphericalPolarGrid, ∀ i j : ℕ,
      (g.geometry ops).cell_centers i j = (g.zone ops (i, j)).centroid ops) ∧
    (∀ s : State C, ∀ k : BlockIndex, ∀ bs : BlockState C,
      ∀ rest : List (BlockIndex × BlockState C), ∀ e : HydroError,
      s.solution = (k, bs) :: rest →
      hydro.global_signal_speed = none →
      bs.try_to_primitive hydro ((mesh.subgrid ops k).geometry ops)
        mesh.block_size mesh.num_polar_zones = .error e →
      s.time_step ops hydro mesh = .error e) := by
  refine ⟨?_, ?_, ?_, ?_⟩
  · intro geometry nr nq bs pf hall
    unfold BlockState.try_to_primitive
    exact collectExcept_ok _ _ (cellsRowMajor nr nq)
      (fun ij hij => by rw [hall ij hij]; rfl)
  · intro geometry nr nq bs l1 l2 i j et hsplit hall herr
    unfold BlockState.try_to_primitive
    rw [hsplit]
    exact collectExcept_append_err _ _ l1 (i, j) l2
      (fun ij hij => by
        obtain ⟨p, hp⟩ := hall ij hij
        exact ⟨p, by rw [hp]; rfl⟩)
      (by rw [herr]; rfl)
  · intro g i j
    rfl
  · intro s k bs rest e hsol hnone herr
    have hts : s.time_step ops hydro mesh =
        (s.solution.foldlM (timeStepBlock ops hydro mesh) f64MAX) >>=
          (fun d => pure (d * hydro.cfl_number)) := by
      unfold State.time_step
      rw [hnone]
    rw [hts, hsol, List.foldlM_cons,
      timeStepBlock_err ops hydro mesh f64MAX (k, bs) e herr]
    rfl

/-- The `f64` reading of `cos(pi/16)`. -/
def cos_pi_16 : ℚ := 98078528040323044 / 100000000000000000

/-- Float table for the C9 witness: the C1 radial tables plus `cos`,
tabulated so that the two polar vertices of cell `(0, 0)` (`0` and
`pi/16`) give the `f64` cosines `1` and `cos(pi/16)`. -/
def opsC9 : FloatOps :=
  { pi := 884279719003555 / 281474976710656
    log10 := fun x => if x = 1 then 0 else if x = 3 then log10_3 else 0
    pow10 := fun y =>
      if y = 0 then 1
      else if y = log10_3 / 2 then sqrt3
      else if y = log10_3 then 3
      else 0
    sin := fun _ => 0
    cos := fun x => if x = 0 then 1 else cos_pi_16
    sqrt := fun _ => 0
    powf := fun _ _ => 0 }

/-- The relativistic configuration with `adaptive_time_step = true`, so
that `global_signal_speed()` is `None`. -/
def rhC9 : RelativisticHydro :=
  { gamma_law_index := 4 / 3
    plm_theta := 3 / 2
    cfl_number := 2 / 5
    runge_kutta_order := .RK2
    riemann_solver := .HLLC
    adaptive_time_step := true }

/-- The adaptive relativistic back-end over the C9 float table. -/
def hydroC9 : Hydro SrhdConserved SrhdPrimitive :=
  rhC9.toHydro opsC9 extSample

/-- A block whose every cell holds the conserved state `(1, 0, 0, -1)`:
negative energy density after division by any positive cell volume. -/
def bsC9 : BlockState SrhdConserved :=
  { conserved := fun _ _ => ⟨1, 0, 0, -1⟩, scalar_mass := fun _ _ => 0 }

/-- A one-block state holding `bsC9` at radial index 0. -/
def stateC9 : State SrhdConserved :=
  { time := 0, iteration := 0, solution := [((0, 0), bsC9)] }

/-- The cached geometry of block `(0, 0)` of `meshC1` over the C9 float
table. -/
def geomC9 : GridGeometry :=
  (meshC1.subgrid opsC9 ((0 : ℤ), (0 : ℕ))).geometry opsC9

/-- The (negative) energy density of cell `(0, 0)` of `bsC9` after
division by the cell volume. -/
def eC9 : ℚ := (geomC9.cell_volumes 0 0)⁻¹ * (-1)

/-- The row-major cells of a `meshC1` block after the leading cell
`(0, 0)`. -/
def restCellsC9 : List (ℕ × ℕ) :=
  [(0, 1), (0, 2), (0, 3), (0, 4), (0, 5), (0, 6), (0, 7),
   (0, 8), (0, 9), (0, 10), (0, 11), (0, 12), (0, 13), (0, 14), (0, 15),
   (1, 0), (1, 1), (1, 2), (1, 3), (1, 4), (1, 5), (1, 6), (1, 7),
   (1, 8), (1, 9), (1, 10), (1, 11), (1, 12), (1, 13), (1, 14), (1, 15)]

/-- Witness for C9: the leading cell `(0, 0)` of the seeded block fails
with `NegativeEnergyDensity`; the block conversion and the adaptive
`time_step` both return that error positioned at the cell's center, the
zone centroid. -/
theorem c9_error_localisation_witness :
    cellsRowMajor meshC1.block_size meshC1.num_polar_zones = [] ++ (0, 0) :: restCellsC9 ∧
    hydroC9.try_to_primitive ((geomC9.cell_volumes 0 0)⁻¹ • bsC9.conserved 0 0) =
      .error (.negativeEnergyDensity eC9) ∧
    bsC9.try_to_primitive hydroC9 geomC9 meshC1.block_size meshC1.num_polar_zones =
      .error ((HydroErrorType.negativeEnergyDensity eC9).at_position
        (geomC9.cell_centers 0 0)) ∧
    geomC9.cell_centers 0 0 =
      ((meshC1.subgrid opsC9 ((0 : ℤ), (0 : ℕ))).zone opsC9 (0, 0)).centroid opsC9 ∧
    stateC9.time_step opsC9 hydroC9 meshC1 =
      .error ((HydroErrorType.negativeEnergyDensity eC9).at_position
        (geomC9.cell_centers 0 0)) := by
  have hsplit : cellsRowMajor meshC1.block_size meshC1.num_polar_zones =
      [] ++ (0, 0) :: restCellsC9 := by rfl
  have herr : hydroC9.try_to_primitive ((geomC9.cell_volumes 0 0)⁻¹ • bsC9.conserved 0 0) =
      .error (.negativeEnergyDensity eC9) := by
    show rhC9.try_to_primitive extSample _ = _
    rw [RelativisticHydro.try_to_primitive]
    norm_num [extSample, bsC9, eC9, smul_srhdConserved, geomC9,
      SphericalPolarGrid.geometry, SphericalPolarGrid.zone, SphericalPolarGrid.zone_signed,
      SphericalPolarGrid.vertex_coordinate_signed, SphericalPolarExtent.volume, cell_volume,
      Mesh.subgrid, Mesh.subgrid_extent, SphericalPolarExtent.grid,
      Mesh.block_dlogr, Mesh.zone_dlogr, meshC1, opsC9, log10_3, sqrt3, cos_pi_16]
  have hblock := (c9_error_localisation opsC9 hydroC9 meshC1).2.1 geomC9
    meshC1.block_size meshC1.num_polar_zones bsC9 [] restCellsC9 0 0
    (.negativeEnergyDensity eC9) hsplit
    (fun ij hij => absurd hij (List.not_mem_nil ij)) herr
  refine ⟨hsplit, herr, hblock,
    (c9_error_localisation opsC9 hydroC9 meshC1).2.2.1
      (meshC1.subgrid opsC9 ((0 : ℤ), (0 : ℕ))) 0 0, ?_⟩
  exact (c9_error_localisation opsC9 hydroC9 meshC1).2.2.2 stateC9 ((0 : ℤ), (0 : ℕ)) bsC9 []
    ((HydroErrorType.negativeEnergyDensity eC9).at_position (geomC9.cell_centers 0 0))
    rfl rfl hblock

/-! ## Claim C2 -/

/-- Componentwise addition on `SrhdConserved` (defining equation). -/
theorem add_srhdConserved (a b : SrhdConserved) :
    a + b = ⟨a.d + b.d, a.sr + b.sr, a.sq + b.sq, a.tau + b.tau⟩ := rfl

/-- Componentwise subtraction on `SrhdConserved` (defining equation). -/
theorem sub_srhdConserved (a b : SrhdConserved) :
    a - b = ⟨a.d - b.d, a.sr - b.sr, a.sq - b.sq, a.tau - b.tau⟩ := rfl

/-- Componentwise negation on `SrhdConserved` (defining equation). -/
theorem neg_srhdConserved (a : SrhdConserved) :
    -a = ⟨-a.d, -a.sr, -a.sq, -a.tau⟩ := rfl

/-- The zero `SrhdConserved` (defining equation). -/
theorem zero_srhdConserved : (0 : SrhdConserved) = ⟨0, 0, 0, 0⟩ := rfl

/-- The crate's componentwise vector operations make `Conserved` an
additive group; needed to instantiate the generic scheme arrays at the
`hydro_srhd` types. -/
instance : AddCommGroup SrhdConserved where
  add := (· + ·)
  zero := 0
  neg := Neg.neg
  sub := Sub.sub
  nsmul := nsmulRec
  zsmul := zsmulRec
  add_assoc a b c := by
    simp only [add_srhdConserved, SrhdConserved.mk.injEq]
    refine ⟨?_, ?_, ?_, ?_⟩ <;> ring
  zero_add a := by
    cases a
    simp only [zero_srhdConserved, add_srhdConserved, SrhdConserved.mk.injEq]
    refine ⟨?_, ?_, ?_, ?_⟩ <;> ring
  add_zero a := by
    cases a
    simp only [zero_srhdConserved, add_srhdConserved, SrhdConserved.mk.injEq]
    refine ⟨?_, ?_, ?_, ?_⟩ <;> ring
  add_comm a b := by
    simp only [add_srhdConserved, SrhdConserved.mk.injEq]
    refine ⟨?_, ?_, ?_, ?_⟩ <;> ring
  neg_add_cancel a := by
    simp only [neg_srhdConserved, add_srhdConserved, zero_srhdConserved,
      SrhdConserved.mk.injEq]
    refine ⟨?_, ?_, ?_, ?_⟩ <;> ring
  sub_eq_add_neg a b := by
    simp only [sub_srhdConserved, neg_srhdConserved, add_srhdConserved,
      SrhdConserved.mk.injEq]
    refine ⟨?_, ?_, ?_, ?_⟩ <;> ring

/-- The crate's scalar multiplication makes `Conserved` a `ℚ`-module. -/
instance : Module ℚ SrhdConserved :=
  { smul := (· • ·)
    one_smul := fun a => by
      cases a
      simp only [smul_srhdConserved, SrhdConserved.mk.injEq]
      refine ⟨?_, ?_, ?_, ?_⟩ <;> ring
    mul_smul := fun q r a => by
      simp only [smul_srhdConserved, SrhdConserved.mk.injEq]
      refine ⟨?_, ?_, ?_, ?_⟩ <;> ring
    smul_zero := fun q => by
      show q • (0 : SrhdConserved) = 0
      simp only [zero_srhdConserved, smul_srhdConserved, SrhdConserved.mk.injEq]
      refine ⟨?_, ?_, ?_, ?_⟩ <;> ring
    smul_add := fun q a b => by
      show q • (a + b) = q • a + q • b
      simp only [add_srhdConserved, smul_srhdConserved, SrhdConserved.mk.injEq]
      refine ⟨?_, ?_, ?_, ?_⟩ <;> ring
    add_smul := fun q r a => by
      show (q + r) • a = q • a + r • a
      simp only [smul_srhdConserved, add_srhdConserved, SrhdConserved.mk.injEq]
      refine ⟨?_, ?_, ?_, ?_⟩ <;> ring
    zero_smul := fun a => by
      show (0 : ℚ) • a = 0
      simp only [smul_srhdConserved, zero_srhdConserved, SrhdConserved.mk.injEq]
      refine ⟨?_, ?_, ?_, ?_⟩ <;> ring }

/-- Componentwise addition on `SrhdPrimitive` (defining equation). -/
theorem add_srhdPrimitive (a b : SrhdPrimitive) :
    a + b = ⟨a.rho + b.rho, a.u1 + b.u1, a.u2 + b.u2, a.pre + b.pre⟩ := rfl

/-- Componentwise subtraction on `SrhdPrimitive` (defining equation). -/
theorem sub_srhdPrimitive (a b : SrhdPrimitive) :
    a - b = ⟨a.rho - b.rho, a.u1 - b.u1, a.u2 - b.u2, a.pre - b.pre⟩ := rfl

/-- Componentwise negation on `SrhdPrimitive` (defining equation). -/
theorem neg_srhdPrimitive (a : SrhdPrimitive) :
    -a = ⟨-a.rho, -a.u1, -a.u2, -a.pre⟩ := rfl

/-- The zero `SrhdPrimitive` (defining equation). -/
theorem zero_srhdPrimitive : (0 : SrhdPrimitive) = ⟨0, 0, 0, 0⟩ := rfl

/-- Componentwise scalar multiplication on `SrhdPrimitive` (defining
equation). -/
theorem smul_srhdPrimitive (q : ℚ) (a : SrhdPrimitive) :
    q • a = ⟨q * a.rho, q * a.u1, q * a.u2, q * a.pre⟩ := rfl

/-- The crate's componentwise vector operations make `Primitive` an
additive group. -/
instance : AddCommGroup SrhdPrimitive where
  add := (· + ·)
  zero := 0
  neg := Neg.neg
  sub := Sub.sub
  nsmul := nsmulRec
  zsmul := zsmulRec
  add_assoc a b c := by
    simp only [add_srhdPrimitive, SrhdPrimitive.mk.injEq]
    refine ⟨?_, ?_, ?_, ?_⟩ <;> ring
  zero_add a := by
    cases a
    simp only [zero_srhdPrimitive, add_srhdPrimitive, SrhdPrimitive.mk.injEq]
    refine ⟨?_, ?_, ?_, ?_⟩ <;> ring
  add_zero a := by
    cases a
    simp only [zero_srhdPrimitive, add_srhdPrimitive, SrhdPrimitive.mk.injEq]
    refine ⟨?_, ?_, ?_, ?_⟩ <;> ring
  add_comm a b := by
    simp only [add_srhdPrimitive, SrhdPrimitive.mk.injEq]
    refine ⟨?_, ?_, ?_, ?_⟩ <;> ring
  neg_add_cancel a := by
    simp only [neg_srhdPrimitive, add_srhdPrimitive, zero_srhdPrimitive,
      SrhdPrimitive.mk.injEq]
    refine ⟨?_, ?_, ?_, ?_⟩ <;> ring
  sub_eq_add_neg a b := by
    simp only [sub_srhdPrimitive, neg_srhdPrimitive, add_srhdPrimitive,
      SrhdPrimitive.mk.injEq]
    refine ⟨?_, ?_, ?_, ?_⟩ <;> ring

/-- The crate's scalar multiplication makes `Primitive` a `ℚ`-module. -/
instance : Module ℚ SrhdPrimitive :=
  { smul := (· • ·)
    one_smul := fun a => by
      cases a
      simp only [smul_srhdPrimitive, SrhdPrimitive.mk.injEq]
      refine ⟨?_, ?_, ?_, ?_⟩ <;> ring
    mul_smul := fun q r a => by
      simp only [smul_srhdPrimitive, SrhdPrimitive.mk.injEq]
      refine ⟨?_, ?_, ?_, ?_⟩ <;> ring
    smul_zero := fun q => by
      show q • (0 : SrhdPrimitive) = 0
      simp only [zero_srhdPrimitive, smul_srhdPrimitive, SrhdPrimitive.mk.injEq]
      refine ⟨?_, ?_, ?_, ?_⟩ <;> ring
    smul_add := fun q a b => by
      show q • (a + b) = q • a + q • b
      simp only [add_srhdPrimitive, smul_srhdPrimitive, SrhdPrimitive.mk.injEq]
      refine ⟨?_, ?_, ?_, ?_⟩ <;> ring
    add_smul := fun q r a => by
      show (q + r) • a = q • a + r • a
      simp only [smul_srhdPrimitive, add_srhdPrimitive, SrhdPrimitive.mk.injEq]
      refine ⟨?_, ?_, ?_, ?_⟩ <;> ring
    zero_smul := fun a => by
      show (0 : ℚ) • a = 0
      simp only [smul_srhdPrimitive, zero_srhdPrimitive, SrhdPrimitive.mk.injEq]
      refine ⟨?_, ?_, ?_, ?_⟩ <;> ring }

/-- **C2 (amended).**  The per-cell update applied by one RK sub-step
(`advance_rk`, `scheme.rs`): the change in conserved quantities equals
`-dt` times the outward face-area-weighted Riemann flux divergence plus
`dt` times the geometrical source term times the cell volume — with NO
gravitational source contribution: `advance_rk` never calls
`gravitational_source_terms` (see `c2_sub_step_counterexample`).  The
change in `scalar_mass` is the analogous flux divergence with no source
at all.  The last part identifies `blockUpdate` as exactly the per-block
update `advance_rk` applies, on a one-block state with model-synthesised
boundary neighbours. -/
theorem c2_sub_step_update {C P : Type} [AddCommGroup C] [Module ℚ C]
    [AddCommGroup P] [Module ℚ P] (ops : FloatOps) (hydro : Hydro C P) (mesh : Mesh) :
    (∀ geometry : GridGeometry, ∀ dt : ℚ, ∀ nr nq : ℕ,
      ∀ pl p0 pr : ℕ → ℕ → P, ∀ sl s0 sr : ℕ → ℕ → ℚ, ∀ bs : BlockState C, ∀ i j : ℕ,
      (blockUpdate hydro geometry dt true nr nq pl p0 pr sl s0 sr bs).conserved i j -
        bs.conserved i j =
      (-dt) • (fluxFx hydro geometry nr pl p0 pr sl s0 sr (i + 1) j -
               fluxFx hydro geometry nr pl p0 pr sl s0 sr i j) +
      dt • (geometry.cell_volumes i j •
        hydro.geometrical_source_terms (p0 i j) (geometry.cell_centers i j))) ∧
    (∀ geometry : GridGeometry, ∀ dt : ℚ, ∀ nr nq : ℕ,
      ∀ pl p0 pr : ℕ → ℕ → P, ∀ sl s0 sr : ℕ → ℕ → ℚ, ∀ bs : BlockState C, ∀ i j : ℕ,
      (blockUpdate hydro geometry dt false nr nq pl p0 pr sl s0 sr bs).conserved i j -
        bs.conserved i j =
      (-dt) • ((fluxFx hydro geometry nr pl p0 pr sl s0 sr (i + 1) j -
                fluxFx hydro geometry nr pl p0 pr sl s0 sr i j) +
               (fluxFy hydro geometry nr nq pl p0 pr sl s0 sr i (j + 1) -
                fluxFy hydro geometry nr nq pl p0 pr sl s0 sr i j)) +
      dt • (geometry.cell_volumes i j •
        hydro.geometrical_source_terms (p0 i j) (geometry.cell_centers i j))) ∧
    (∀ geometry : GridGeometry, ∀ dt : ℚ, ∀ nr nq : ℕ,
      ∀ pl p0 pr : ℕ → ℕ → P, ∀ sl s0 sr : ℕ → ℕ → ℚ, ∀ bs : BlockState C, ∀ i j : ℕ,
      (blockUpdate hydro geometry dt true nr nq pl p0 pr sl s0 sr bs).scalar_mass i j -
        bs.scalar_mass i j =
      (-dt) * (fluxGx hydro geometry nr pl p0 pr sl s0 sr (i + 1) j -
               fluxGx hydro geometry nr pl p0 pr sl s0 sr i j)) ∧
    (∀ geometry : GridGeometry, ∀ dt : ℚ, ∀ nr nq : ℕ,
      ∀ pl p0 pr : ℕ → ℕ → P, ∀ sl s0 sr : ℕ → ℕ → ℚ, ∀ bs : BlockState C, ∀ i j : ℕ,
      (blockUpdate hydro geometry dt false nr nq pl p0 pr sl s0 sr bs).scalar_mass i j -
        bs.scalar_mass i j =
      (-dt) * ((fluxGx hydro geometry nr pl p0 pr sl s0 sr (i + 1) j -
                fluxGx hydro geometry nr pl p0 pr sl s0 sr i j) +
               (fluxGy hydro geometry nr nq pl p0 pr sl s0 sr i (j + 1) -
                fluxGy hydro geometry nr nq pl p0 pr sl s0 sr i j))) ∧
    (∀ model : InitialModel, ∀ g : GridGeometry, ∀ bs : BlockState C, ∀ m : ℤ,
      ∀ t it dt : ℚ,
      i32MIN ≤ m - 1 → m + 1 ≤ i32MAX →
      advance_rk ops hydro model mesh [(((m, 0) : BlockIndex), g)]
        { time := t, iteration := it, solution := [(((m, 0) : BlockIndex), bs)] } dt =
      some { time := t + dt, iteration := it + 1,
             solution := [(((m, 0) : BlockIndex),
               blockUpdate hydro g dt (decide (mesh.num_polar_zones = 1))
                 mesh.block_size mesh.num_polar_zones
                 (stageOf hydro (BlockState.from_model model hydro
                   ((mesh.subgrid ops ((m - 1, 0) : BlockIndex)).geometry ops) t)
                   ((mesh.subgrid ops ((m - 1, 0) : BlockIndex)).geometry ops)).1
                 (stageOf hydro bs g).1
                 (stageOf hydro (BlockState.from_model model hydro
                   ((mesh.subgrid ops ((m + 1, 0) : BlockIndex)).geometry ops) t)
                   ((mesh.subgrid ops ((m + 1, 0) : BlockIndex)).geometry ops)).1
                 (stageOf hydro (BlockState.from_model model hydro
                   ((mesh.subgrid ops ((m - 1, 0) : BlockIndex)).geometry ops) t)
                   ((mesh.subgrid ops ((m - 1, 0) : BlockIndex)).geometry ops)).2
                 (stageOf hydro bs g).2
                 (stageOf hydro (BlockState.from_model model hydro
                   ((mesh.subgrid ops ((m + 1, 0) : BlockIndex)).geometry ops) t)
                   ((mesh.subgrid ops ((m + 1, 0) : BlockIndex)).geometry ops)).2
                 bs)] }) := by
  refine ⟨?_, ?_, ?_, ?_, ?_⟩
  · intro geometry dt nr nq pl p0 pr sl s0 sr bs i j
    show bs.conserved i j + dt •
        (sourceSc hydro geometry p0 i j -
          (fluxFx hydro geometry nr pl p0 pr sl s0 sr (i + 1) j -
           fluxFx hydro geometry nr pl p0 pr sl s0 sr i j)) -
        bs.conserved i j = _
    simp only [sourceSc]
    rw [add_sub_cancel_left, smul_sub, neg_smul, neg_add_eq_sub]
  · intro geometry dt nr nq pl p0 pr sl s0 sr bs i j
    show bs.conserved i j + dt •
        (sourceSc hydro geometry p0 i j -
          (fluxFx hydro geometry nr pl p0 pr sl s0 sr (i + 1) j -
           fluxFx hydro geometry nr pl p0 pr sl s0 sr i j) -
          (fluxFy hydro geometry nr nq pl p0 pr sl s0 sr i (j + 1) -
           fluxFy hydro geometry nr nq pl p0 pr sl s0 sr i j)) -
        bs.conserved i j = _
    simp only [sourceSc]
    rw [add_sub_cancel_left, sub_sub, smul_sub, neg_smul, neg_add_eq_sub]
  · intro geometry dt nr nq pl p0 pr sl s0 sr bs i j
    show bs.scalar_mass i j +
        (fluxGx hydro geometry nr pl p0 pr sl s0 sr (i + 1) j -
         fluxGx hydro geometry nr pl p0 pr sl s0 sr i j) * (-dt) -
        bs.scalar_mass i j = _
    ring
  · intro geometry dt nr nq pl p0 pr sl s0 sr bs i j
    show bs.scalar_mass i j +
        ((fluxGx hydro geometry nr pl p0 pr sl s0 sr (i + 1) j -
          fluxGx hydro geometry nr pl p0 pr sl s0 sr i j) +
         (fluxGy hydro geometry nr nq pl p0 pr sl s0 sr i (j + 1) -
          fluxGy hydro geometry nr nq pl p0 pr sl s0 sr i j)) * (-dt) -
        bs.scalar_mass i j = _
    ring
  · intro model g bs m t it dt hlo hhi
    have hmm : ({ time := t, iteration := it, solution := [(((m, 0) : BlockIndex), bs)] } :
        State C).inner_outer_boundary_indexes =
        ((m - 1, (0 : ℕ)), (m + 1, (0 : ℕ))) := by
      show State.min_max_block_indexes_offset_by _ 1 = _
      show ((min i32MAX (m - 1), (0 : ℕ)), (max i32MIN (m + 1), (0 : ℕ))) = _
      rw [min_eq_right (by omega), max_eq_right (by omega)]
    have h1 : ¬(((m - 1, 0) : BlockIndex) = ((m + 1, 0) : BlockIndex)) := fun h => by
      have h0 : (m - 1 : ℤ) = m + 1 := congrArg Prod.fst h
      omega
    have h2 : ¬(((m, 0) : BlockIndex) = ((m + 1, 0) : BlockIndex)) := fun h => by
      have h0 : (m : ℤ) = m + 1 := congrArg Prod.fst h
      omega
    have h3 : ¬(((m, 0) : BlockIndex) = ((m - 1, 0) : BlockIndex)) := fun h => by
      have h0 : (m : ℤ) = m - 1 := congrArg Prod.fst h
      omega
    simp only [advance_rk, hmm, List.mapM_cons, List.mapM_nil, lookupKey,
      h1, h2, h3, Option.bind_eq_bind, Option.some_bind, Option.map_some',
      Option.pure_def, and_true, true_and, and_false, false_and, if_true, if_false,
      eq_self_iff_true, ite_true, ite_false, ne_eq, not_false_eq_true, not_true]

/-- The cached geometry of block `(0, 0)` of the C5/C6 sample mesh, used
as the C2 witness geometry. -/
def geomC2W : GridGeometry :=
  (meshInnerZero.subgrid opsTriv ((0 : ℤ), (0 : ℕ))).geometry opsTriv

/-- Witness for C2, part 5: the one-block sub-step equation at radial
index 0 on the sample mesh over the trivial back-end. -/
theorem c2_sub_step_update_witness :
    (i32MIN ≤ (0 : ℤ) - 1) ∧ ((0 : ℤ) + 1 ≤ i32MAX) ∧
    advance_rk opsTriv hydroTrivQ modelTriv meshInnerZero [(((0 : ℤ), (0 : ℕ)), geomC2W)]
      { time := 0, iteration := 0, solution := [((((0 : ℤ)), (0 : ℕ)), zeroBlockQ)] } 1 =
      some { time := 0 + 1, iteration := 0 + 1,
             solution := [((((0 : ℤ)), (0 : ℕ)),
               blockUpdate hydroTrivQ geomC2W 1 (decide (meshInnerZero.num_polar_zones = 1))
                 meshInnerZero.block_size meshInnerZero.num_polar_zones
                 (stageOf hydroTrivQ (BlockState.from_model modelTriv hydroTrivQ
                   ((meshInnerZero.subgrid opsTriv ((0 - 1, 0) : BlockIndex)).geometry opsTriv) 0)
                   ((meshInnerZero.subgrid opsTriv ((0 - 1, 0) : BlockIndex)).geometry opsTriv)).1
                 (stageOf hydroTrivQ zeroBlockQ geomC2W).1
                 (stageOf hydroTrivQ (BlockState.from_model modelTriv hydroTrivQ
                   ((meshInnerZero.subgrid opsTriv ((0 + 1, 0) : BlockIndex)).geometry opsTriv) 0)
                   ((meshInnerZero.subgrid opsTriv ((0 + 1, 0) : BlockIndex)).geometry opsTriv)).1
                 (stageOf hydroTrivQ (BlockState.from_model modelTriv hydroTrivQ
                   ((meshInnerZero.subgrid opsTriv ((0 - 1, 0) : BlockIndex)).geometry opsTriv) 0)
                   ((meshInnerZero.subgrid opsTriv ((0 - 1, 0) : BlockIndex)).geometry opsTriv)).2
                 (stageOf hydroTrivQ zeroBlockQ geomC2W).2
                 (stageOf hydroTrivQ (BlockState.from_model modelTriv hydroTrivQ
                   ((meshInnerZero.subgrid opsTriv ((0 + 1, 0) : BlockIndex)).geometry opsTriv) 0)
                   ((meshInnerZero.subgrid opsTriv ((0 + 1, 0) : BlockIndex)).geometry opsTriv)).2
                 zeroBlockQ)] } :=
  ⟨by decide, by decide,
    (c2_sub_step_update opsTriv hydroTrivQ meshInnerZero).2.2.2.2 modelTriv geomC2W zeroBlockQ
      0 0 0 1 (by decide) (by decide)⟩

/-- The `f64` reading of `PI`. -/
def pi64 : ℚ := 884279719003555 / 281474976710656

/-- The `f64` reading of `3 ^ (1/4)` (the centroid radius of zone `(0, 0)`
of the C1 mesh, `sqrt(1 * sqrt(3))`). -/
def fourthRoot3 : ℚ := 2963535217162419 / 2251799813685248

/-- The `f64` reading of `cos(pi/32)`. -/
def cos_pi_32 : ℚ := 4481913564205715 / 4503599627370496

/-- The `f64` reading of `sin(pi/32)`. -/
def sin_pi_32 : ℚ := 1765719826656523 / 18014398509481984

/-- The galactic-model `z` argument of `gravitational_source_terms` at the
centroid of cell `(0, 0)`: `r * cos(theta) + 1.5e20`. -/
def zCE : ℚ := fourthRoot3 * cos_pi_32 + 15 * 10 ^ 19

/-- The `f64` reading of `sqrt(zCE^2 + b_s^2)` (thin-disk term). -/
def sqrtZB_s : ℚ := 1796273921204669644800

/-- The `f64` reading of `sqrt(zCE^2 + b_g^2)` (thick-disk term). -/
def sqrtZB_g : ℚ := 703500015991471049015296

/-- The `f64` reading of `(r^2 + zCE^2 + a_b^2) ^ (3/2)` (bulge term). -/
def powP1 : ℚ := 1012459290083927986897029710208743440846825387699159457360427089920

/-- The `f64` reading of `(r^2 + (a_s + sqrtZB_s)^2) ^ (3/2)`. -/
def powP2 : ℚ := 7093037129483796895368476082261190884722347898395169492145159536640

/-- The `f64` reading of `(r^2 + (a_g + sqrtZB_g)^2) ^ (3/2)`. -/
def powP3 : ℚ := 370424127448542575945578534383187394550698353222498811733943345821515776

/-- Float table for the C2 counterexample: the C1 radial tables, `cos`
and `sin` at the polar vertices and centroid of cell `(0, 0)`, and `sqrt`
and `powf` at the arguments reached by the galactic-model field at that
cell's centroid. -/
def opsCE : FloatOps :=
  { pi := pi64
    log10 := fun x => if x = 1 then 0 else if x = 3 then log10_3 else 0
    pow10 := fun y =>
      if y = 0 then 1
      else if y = log10_3 / 2 then sqrt3
      else if y = log10_3 then 3
      else 0
    sin := fun x => if x = pi64 / 32 then sin_pi_32 else 0
    cos := fun x =>
      if x = 0 then 1
      else if x = pi64 / 16 then cos_pi_16
      else if x = pi64 / 32 then cos_pi_32
      else 0
    sqrt := fun x =>
      if x = 1 then 1
      else if x = sqrt3 then fourthRoot3
      else if x = zCE * zCE + (1790 * 10 ^ 18) * (1790 * 10 ^ 18) then sqrtZB_s
      else if x = zCE * zCE + (7035 * 10 ^ 20) * (7035 * 10 ^ 20) then sqrtZB_g
      else 0
    powf := fun x y =>
      if y = 3 / 2 then
        if x = 10 ^ 44 + zCE * zCE + (898 * 10 ^ 18) * (898 * 10 ^ 18) then powP1
        else if x = 10 ^ 44 + (1461 * 10 ^ 19 + sqrtZB_s) ^ 2 then powP2
        else if x = 10 ^ 44 + (1461 * 10 ^ 19 + sqrtZB_g) ^ 2 then powP3
        else 0
      else 0 }

/-- External `hydro_srhd` functions for the C2 counterexample: vanishing
Riemann fluxes and geometry sources, and a root-find that always recovers
the primitive `(1, 0, 0, 1)`. -/
def extCE : SrhdExt :=
  { lab_frame_density := fun u => u.d
    energy_density := fun u => u.tau
    to_primitive := fun _ _ => .success ⟨1, 0, 0, 1⟩
    to_conserved := fun _ _ => ⟨0, 0, 0, 0⟩
    max_signal_speed := fun _ _ => 1
    lorentz_factor_squared := fun _ => 1
    specific_enthalpy := fun _ _ => 1
    spherical_geometry_source_terms := fun _ _ _ _ => ⟨0, 0, 0, 0⟩
    riemann_hllc_scalar := fun _ _ _ _ _ _ _ => (⟨0, 0, 0, 0⟩, 0)
    plm_gradient4 := fun _ _ _ _ => ⟨0, 0, 0, 0⟩
    plm_gradient := fun _ _ _ _ => 0 }

/-- The relativistic back-end over the C2 float table. -/
def hydroCE : Hydro SrhdConserved SrhdPrimitive :=
  rhSample.toHydro opsCE extCE

/-- The cached geometry of block `(0, 0)` of `meshC1` over the C2 float
table. -/
def geomCE : GridGeometry :=
  (meshC1.subgrid opsCE ((0 : ℤ), (0 : ℕ))).geometry opsCE

/-- The staged primitive and scalar arrays of the all-zero block over the
C2 counterexample back-end. -/
def stageCE : (ℕ → ℕ → SrhdPrimitive) × (ℕ → ℕ → ℚ) :=
  stageOf hydroCE zeroBlockSrhd geomCE

/-- The zero `SrhdConserved` along the group-structure instance path
(defining equation; `zero_srhdConserved` states it for the plain `Zero`
instance). -/
theorem zero_srhdConserved' : (0 : SrhdConserved) = ⟨0, 0, 0, 0⟩ := rfl

/-- **C2 counterexample.**  In the real relativistic back-end over a
concrete float table, the sub-step update of cell `(0, 0)` is zero (the
Riemann fluxes and geometric sources vanish identically), while the
claim's formula additionally contains `dt * (gravitational source * cell
volume)`, which is nonzero there: the hard-coded galactic-model field at
the cell's centroid is a nonzero polar momentum and energy source.  So
the change applied by one sub-step is not the claim's three-term sum:
`advance_rk` never calls `gravitational_source_terms`. -/
theorem c2_sub_step_counterexample :
    (blockUpdate hydroCE geomCE 1 false meshC1.block_size meshC1.num_polar_zones
        stageCE.1 stageCE.1 stageCE.1 stageCE.2 stageCE.2 stageCE.2 zeroBlockSrhd).conserved 0 0 -
      zeroBlockSrhd.conserved 0 0 = 0 ∧
    geomCE.cell_volumes 0 0 •
      hydroCE.gravitational_source_terms (stageCE.1 0 0) (geomCE.cell_centers 0 0) ≠ 0 ∧
    (blockUpdate hydroCE geomCE 1 false meshC1.block_size meshC1.num_polar_zones
        stageCE.1 stageCE.1 stageCE.1 stageCE.2 stageCE.2 stageCE.2 zeroBlockSrhd).conserved 0 0 -
      zeroBlockSrhd.conserved 0 0 ≠
      (-1 : ℚ) • ((fluxFx hydroCE geomCE meshC1.block_size stageCE.1 stageCE.1 stageCE.1
           stageCE.2 stageCE.2 stageCE.2 (0 + 1) 0 -
         fluxFx hydroCE geomCE meshC1.block_size stageCE.1 stageCE.1 stageCE.1
           stageCE.2 stageCE.2 stageCE.2 0 0) +
        (fluxFy hydroCE geomCE meshC1.block_size meshC1.num_polar_zones stageCE.1 stageCE.1
           stageCE.1 stageCE.2 stageCE.2 stageCE.2 0 (0 + 1) -
         fluxFy hydroCE geomCE meshC1.block_size meshC1.num_polar_zones stageCE.1 stageCE.1
           stageCE.1 stageCE.2 stageCE.2 stageCE.2 0 0)) +
      (1 : ℚ) • (geomCE.cell_volumes 0 0 •
        hydroCE.geometrical_source_terms (stageCE.1 0 0) (geomCE.cell_centers 0 0)) +
      (1 : ℚ) • (geomCE.cell_volumes 0 0 •
        hydroCE.gravitational_source_terms (stageCE.1 0 0) (geomCE.cell_centers 0 0)) := by
  have hgod : ∀ a b : SrhdPrimitive, ∀ c d : ℚ, ∀ e : Direction,
      hydroCE.intercell_flux a b c d e = ((0 : SrhdConserved), (0 : ℚ)) := by
    intro a b c d e
    show ((LIGHT_SPEED • (⟨0, 0, 0, 0⟩ : SrhdConserved), (0 : ℚ) * LIGHT_SPEED) :
      SrhdConserved × ℚ) = ((⟨0, 0, 0, 0⟩ : SrhdConserved), (0 : ℚ))
    rw [smul_srhdConserved]
    norm_num [Prod.mk.injEq, SrhdConserved.mk.injEq]
  have hgeo0 : ∀ a : SrhdPrimitive, ∀ c : ℚ × ℚ,
      hydroCE.geometrical_source_terms a c = 0 := by
    intro a c
    show LIGHT_SPEED • (⟨0, 0, 0, 0⟩ : SrhdConserved) = (⟨0, 0, 0, 0⟩ : SrhdConserved)
    rw [smul_srhdConserved]
    norm_num [SrhdConserved.mk.injEq]
  have hbgX : ∀ i j : ℕ, blockGodunovX hydroCE meshC1.block_size stageCE.1 stageCE.1 stageCE.1
      stageCE.2 stageCE.2 stageCE.2 i j = ((0 : SrhdConserved), (0 : ℚ)) := by
    intro i j
    show hydroCE.intercell_flux _ _ _ _ _ = _
    exact hgod _ _ _ _ _
  have hbgY : ∀ i j : ℕ, blockGodunovY hydroCE meshC1.block_size meshC1.num_polar_zones
      stageCE.1 stageCE.1 stageCE.1 stageCE.2 stageCE.2 stageCE.2 i j =
      ((0 : SrhdConserved), (0 : ℚ)) := by
    intro i j
    show hydroCE.intercell_flux _ _ _ _ _ = _
    exact hgod _ _ _ _ _
  have hfx : ∀ i j : ℕ, fluxFx hydroCE geomCE meshC1.block_size stageCE.1 stageCE.1 stageCE.1
      stageCE.2 stageCE.2 stageCE.2 i j = 0 := by
    intro i j
    show geomCE.radial_face_areas i j • (blockGodunovX hydroCE meshC1.block_size stageCE.1
      stageCE.1 stageCE.1 stageCE.2 stageCE.2 stageCE.2 i j).1 = 0
    rw [hbgX]
    exact smul_zero _
  have hfy : ∀ i j : ℕ, fluxFy hydroCE geomCE meshC1.block_size meshC1.num_polar_zones
      stageCE.1 stageCE.1 stageCE.1 stageCE.2 stageCE.2 stageCE.2 i j = 0 := by
    intro i j
    show geomCE.polar_face_areas i j •
      (if 1 ≤ j ∧ j < meshC1.num_polar_zones then
        (blockGodunovY hydroCE meshC1.block_size meshC1.num_polar_zones stageCE.1 stageCE.1
          stageCE.1 stageCE.2 stageCE.2 stageCE.2 i (j - 1)).1
      else 0) = 0
    split_ifs with h
    · rw [hbgY]
      exact smul_zero _
    · exact smul_zero _
  have hsc0 : sourceSc hydroCE geomCE stageCE.1 0 0 = 0 := by
    show geomCE.cell_volumes 0 0 • hydroCE.geometrical_source_terms (stageCE.1 0 0)
      (geomCE.cell_centers 0 0) = 0
    rw [hgeo0]
    exact smul_zero _
  have h1 : (blockUpdate hydroCE geomCE 1 false meshC1.block_size meshC1.num_polar_zones
      stageCE.1 stageCE.1 stageCE.1 stageCE.2 stageCE.2 stageCE.2 zeroBlockSrhd).conserved 0 0 -
      zeroBlockSrhd.conserved 0 0 = 0 := by
    show zeroBlockSrhd.conserved 0 0 + (1 : ℚ) •
        (sourceSc hydroCE geomCE stageCE.1 0 0 -
          (fluxFx hydroCE geomCE meshC1.block_size stageCE.1 stageCE.1 stageCE.1
            stageCE.2 stageCE.2 stageCE.2 (0 + 1) 0 -
           fluxFx hydroCE geomCE meshC1.block_size stageCE.1 stageCE.1 stageCE.1
            stageCE.2 stageCE.2 stageCE.2 0 0) -
          (fluxFy hydroCE geomCE meshC1.block_size meshC1.num_polar_zones stageCE.1 stageCE.1
            stageCE.1 stageCE.2 stageCE.2 stageCE.2 0 (0 + 1) -
           fluxFy hydroCE geomCE meshC1.block_size meshC1.num_polar_zones stageCE.1 stageCE.1
            stageCE.1 stageCE.2 stageCE.2 stageCE.2 0 0)) -
        zeroBlockSrhd.conserved 0 0 = 0
    rw [hsc0, hfx, hfx, hfy, hfy]
    simp only [zeroBlockSrhd]
    simp only [zero_srhdConserved, sub_srhdConserved, add_srhdConserved, smul_srhdConserved,
      SrhdConserved.mk.injEq]
    norm_num
  have hp : stageCE.1 0 0 = ⟨1, 0, 0, 1⟩ := by
    have hu : rhSample.try_to_primitive extCE ((geomCE.cell_volumes 0 0)⁻¹ •
        zeroBlockSrhd.conserved 0 0) = .ok ⟨1, 0, 0, 1⟩ := by
      have hz : ((geomCE.cell_volumes 0 0)⁻¹ • zeroBlockSrhd.conserved 0 0 : SrhdConserved) =
          ⟨(geomCE.cell_volumes 0 0)⁻¹ * 0, (geomCE.cell_volumes 0 0)⁻¹ * 0,
           (geomCE.cell_volumes 0 0)⁻¹ * 0, (geomCE.cell_volumes 0 0)⁻¹ * 0⟩ := rfl
      rw [hz, RelativisticHydro.try_to_primitive]
      norm_num [extCE]
    show (match rhSample.try_to_primitive extCE ((geomCE.cell_volumes 0 0)⁻¹ •
        zeroBlockSrhd.conserved 0 0) with
      | .ok p => p
      | .error _ => 0) = (⟨1, 0, 0, 1⟩ : SrhdPrimitive)
    rw [hu]
  have hc : geomCE.cell_centers 0 0 = ((fourthRoot3, pi64 / 32) : ℚ × ℚ) := by
    show ((meshC1.subgrid opsCE ((0 : ℤ), (0 : ℕ))).zone opsCE (0, 0)).centroid opsCE = _
    norm_num [SphericalPolarGrid.zone, SphericalPolarGrid.zone_signed,
      SphericalPolarGrid.vertex_coordinate_signed, SphericalPolarExtent.centroid,
      Mesh.subgrid, Mesh.subgrid_extent, SphericalPolarExtent.grid,
      Mesh.block_dlogr, Mesh.zone_dlogr, meshC1, opsCE, log10_3, sqrt3, pi64,
      Prod.mk.injEq]
  have hgrav : geomCE.cell_volumes 0 0 •
      hydroCE.gravitational_source_terms (stageCE.1 0 0) (geomCE.cell_centers 0 0) ≠ 0 := by
    rw [hp, hc]
    show geomCE.cell_volumes 0 0 • hydroCE.gravitational_source_terms ⟨1, 0, 0, 1⟩
        ((fourthRoot3, pi64 / 32) : ℚ × ℚ) ≠ (⟨0, 0, 0, 0⟩ : SrhdConserved)
    norm_num [hydroCE, RelativisticHydro.toHydro,
      RelativisticHydro.gravitational_source_terms, GalacticModel.g_field_z,
      ModelComponents.total, relativisticGalacticModel, rhSample, extCE, opsCE,
      geomCE, SphericalPolarGrid.geometry, SphericalPolarGrid.zone,
      SphericalPolarGrid.zone_signed, SphericalPolarGrid.vertex_coordinate_signed,
      SphericalPolarExtent.volume, cell_volume, Mesh.subgrid, Mesh.subgrid_extent,
      SphericalPolarExtent.grid, Mesh.block_dlogr, Mesh.zone_dlogr, meshC1,
      log10_3, sqrt3, pi64, fourthRoot3, cos_pi_32, sin_pi_32, cos_pi_16, zCE,
      sqrtZB_s, sqrtZB_g, powP1, powP2, powP3, LIGHT_SPEED,
      smul_srhdConserved, SrhdConserved.mk.injEq]
  refine ⟨h1, hgrav, ?_⟩
  have h3 : (-1 : ℚ) • ((fluxFx hydroCE geomCE meshC1.block_size stageCE.1 stageCE.1 stageCE.1
        stageCE.2 stageCE.2 stageCE.2 (0 + 1) 0 -
      fluxFx hydroCE geomCE meshC1.block_size stageCE.1 stageCE.1 stageCE.1
        stageCE.2 stageCE.2 stageCE.2 0 0) +
      (fluxFy hydroCE geomCE meshC1.block_size meshC1.num_polar_zones stageCE.1 stageCE.1
        stageCE.1 stageCE.2 stageCE.2 stageCE.2 0 (0 + 1) -
       fluxFy hydroCE geomCE meshC1.block_size meshC1.num_polar_zones stageCE.1 stageCE.1
        stageCE.1 stageCE.2 stageCE.2 stageCE.2 0 0)) +
      (1 : ℚ) • (geomCE.cell_volumes 0 0 •
        hydroCE.geometrical_source_terms (stageCE.1 0 0) (geomCE.cell_centers 0 0)) +
      (1 : ℚ) • (geomCE.cell_volumes 0 0 •
        hydroCE.gravitational_source_terms (stageCE.1 0 0) (geomCE.cell_centers 0 0)) =
      geomCE.cell_volumes 0 0 •
        hydroCE.gravitational_source_terms (stageCE.1 0 0) (geomCE.cell_centers 0 0) := by
    rw [hgeo0]
    simp only [hfx, hfy]
    simp only [zero_srhdConserved, sub_srhdConserved, add_srhdConserved, smul_srhdConserved,
      SrhdConserved.mk.injEq]
    refine ⟨?_, ?_, ?_, ?_⟩ <;> ring
  rw [h1, h3]
  exact fun h => hgrav h.symm

end Kilonova
